import Mathlib

/-!
# The ellipse tool of PaintWeb (`src/tools/ellipse.js`)

A shallow embedding of the ellipse tool.  The tool is a closure over five
private variables (`timer`, `shiftKey`, `needsRedraw`, `x0`, `y0`) and over a
handful of host objects (`app.mouse`, `app.image`, `app.config`, the buffer
context, `window.setInterval`, ...).  Here the private variables and the host
objects the tool reads are the fields of one record `State`, every handler is a
function from a state to a `Result` (the next state, the host calls made, in
order, and the returned value), and numbers are the elements of a linearly
ordered field `α` (`ℚ` to run the model, `ℝ` for exact real arithmetic).
-/

namespace PaintWeb
namespace EllipseTool

/-- One call made by the tool on a host object, with its arguments. -/
inductive HostCall (α : Type) where
  /-- Models `setInterval(_self.draw, delay)`; `handle` is the ID it returned. -/
  | setInterval (delay : Nat) (handle : Nat)
  | clearInterval (handle : Nat)
  | clearRect (x y w h : α)
  | beginPath
  | moveTo (x y : α)
  | bezierCurveTo (cp1x cp1y cp2x cp2y x y : α)
  | fill
  | stroke
  | closePath
  | layerUpdate
  | statusShow (id : String)
  deriving DecidableEq, Repr

/-- The host object `app.mouse`: pointer position in image space and button flag. -/
structure Mouse (α : Type) where
  x : α
  y : α
  buttonDown : Bool
  deriving DecidableEq, Repr

/-- The host object `app.image`: only its dimensions are read. -/
structure Image (α : Type) where
  width : α
  height : α
  deriving DecidableEq, Repr

/-- The host object `app.config`: the two settings the tool reads. -/
structure Config where
  shapeType : String
  toolDrawDelay : Nat
  deriving DecidableEq, Repr

/-- The fields of a DOM event the handlers read. -/
structure Event where
  shiftKey : Bool
  kid_ : String
  deriving DecidableEq, Repr

/-- The tool's private variables together with the host objects it reads.
`timer` is `none` for `null` and `some h` for the interval ID `h` returned by
`setInterval` (a non-null, truthy handle); `nextHandle` is the ID the host hands
out at the next `setInterval`; `SQRT2` is the host constant `Math.SQRT2`. -/
structure State (α : Type) where
  timer : Option Nat
  shiftKey : Bool
  needsRedraw : Bool
  x0 : α
  y0 : α
  mouse : Mouse α
  image : Image α
  config : Config
  SQRT2 : α
  nextHandle : Nat
  deriving DecidableEq, Repr

/-- What a handler call produces: the state afterwards, the host calls it made in
order, and its return value (`none` for `undefined`). -/
structure Result (α : Type) where
  state : State α
  calls : List (HostCall α)
  ret : Option Bool
  deriving DecidableEq, Repr

/-- The local variables `rectx0, recty0, rectx1, recty1, w, h` of `draw`. -/
structure Rect (α : Type) where
  rectx0 : α
  recty0 : α
  rectx1 : α
  recty1 : α
  w : α
  h : α
  deriving DecidableEq, Repr

section Model

variable {α : Type} [LinearOrderedField α]

/-- The constant `var K = 4*((Math.SQRT2-1)/3)`. -/
def K (SQRT2 : α) : α := 4 * ((SQRT2 - 1) / 3)

/-- The state of a freshly constructed tool over the given host objects. -/
def initial (mouse : Mouse α) (image : Image α) (config : Config) (SQRT2 : α)
    (nextHandle : Nat) : State α :=
  { timer := none, shiftKey := false, needsRedraw := false, x0 := 0, y0 := 0,
    mouse := mouse, image := image, config := config, SQRT2 := SQRT2,
    nextHandle := nextHandle }

/-- The call `context.clearRect(0, 0, image.width, image.height)`. -/
def clearCanvas (s : State α) : HostCall α :=
  HostCall.clearRect 0 0 s.image.width s.image.height

/-- The handler `this.deactivate`. -/
def deactivate (s : State α) : Result α :=
  match s.timer with
  | some t =>
    { state := { s with timer := none, needsRedraw := false },
      calls := [HostCall.clearInterval t, clearCanvas s],
      ret := some true }
  | none => { state := s, calls := [], ret := some true }

/-- The handler `this.mousedown`. -/
def mousedown (ev : Event) (s : State α) : Result α :=
  let s1 : State α := { s with x0 := s.mouse.x, y0 := s.mouse.y }
  match s1.timer with
  | none =>
    { state := { s1 with timer := some s1.nextHandle, nextHandle := s1.nextHandle + 1,
                         shiftKey := ev.shiftKey, needsRedraw := false },
      calls := [HostCall.setInterval s1.config.toolDrawDelay s1.nextHandle,
                HostCall.statusShow "ellipseMousedown"],
      ret := some true }
  | some _ =>
    { state := { s1 with shiftKey := ev.shiftKey, needsRedraw := false },
      calls := [HostCall.statusShow "ellipseMousedown"],
      ret := some true }

/-- The handler `this.mousemove`. -/
def mousemove (ev : Event) (s : State α) : Result α :=
  { state := { s with shiftKey := ev.shiftKey, needsRedraw := true },
    calls := [],
    ret := none }

/-- The rectangle of `draw` before the circle constraint: the four `MathMin` /
`MathMax` corners and `w = rectx1-rectx0`, `h = recty1-recty0`. -/
def boundingRect (s : State α) : Rect α :=
  let rectx0 := min s.mouse.x s.x0
  let rectx1 := max s.mouse.x s.x0
  let recty0 := min s.mouse.y s.y0
  let recty1 := max s.mouse.y s.y0
  { rectx0 := rectx0, recty0 := recty0, rectx1 := rectx1, recty1 := recty1,
    w := rectx1 - rectx0, h := recty1 - recty0 }

/-- The body of `if (shiftKey) { ... }` in `draw`. -/
def constrainCircle (mouse : Mouse α) (r : Rect α) : Rect α :=
  if r.w > r.h then
    let recty1 := r.recty0 + r.w
    if r.recty0 = mouse.y then
      { r with recty0 := r.recty0 - (r.w - r.h), recty1 := recty1 - (r.w - r.h), h := r.w }
    else
      { r with recty1 := recty1, h := r.w }
  else
    let rectx1 := r.rectx0 + r.h
    if r.rectx0 = mouse.x then
      { r with rectx0 := r.rectx0 - (r.h - r.w), rectx1 := rectx1 - (r.h - r.w), w := r.h }
    else
      { r with rectx1 := rectx1, w := r.h }

/-- The rectangle `draw` inscribes the ellipse in: the bounding rectangle,
constrained to a square when `shiftKey` is set. -/
def finalRect (s : State α) : Rect α :=
  if s.shiftKey then constrainCircle s.mouse (boundingRect s) else boundingRect s

/-- The radius `var rx = w/2` (before it is scaled by `K`). -/
def radiusX (r : Rect α) : α := r.w / 2

/-- The radius `ry = h/2` (before it is scaled by `K`). -/
def radiusY (r : Rect α) : α := r.h / 2

/-- The centre abscissa `var cx = rectx0+rx`. -/
def centreX (r : Rect α) : α := r.rectx0 + radiusX r

/-- The centre ordinate `cy = recty0+ry`. -/
def centreY (r : Rect α) : α := r.recty0 + radiusY r

/-- The path construction of `draw`: `beginPath`, `moveTo` and the four
`bezierCurveTo` calls, with `rx *= K; ry *= K` applied after the centre. -/
def pathCalls (k : α) (r : Rect α) : List (HostCall α) :=
  let cx := centreX r
  let cy := centreY r
  let rx := radiusX r * k
  let ry := radiusY r * k
  [ HostCall.beginPath,
    HostCall.moveTo cx r.recty0,
    HostCall.bezierCurveTo (cx + rx) r.recty0 r.rectx1 (cy - ry) r.rectx1 cy,
    HostCall.bezierCurveTo r.rectx1 (cy + ry) (cx + rx) r.recty1 cx r.recty1,
    HostCall.bezierCurveTo (cx - rx) r.recty1 r.rectx0 (cy + ry) r.rectx0 cy,
    HostCall.bezierCurveTo r.rectx0 (cy - ry) (cx - rx) r.recty0 cx r.recty0 ]

/-- The fill / stroke selection of `draw`, followed by `closePath`. -/
def paintCalls (shapeType : String) : List (HostCall α) :=
  (if shapeType ≠ "stroke" then [HostCall.fill] else []) ++
  (if shapeType ≠ "fill" then [HostCall.stroke] else []) ++
  [HostCall.closePath]

/-- The function `this.draw`, the timer callback. -/
def draw (s : State α) : Result α :=
  if !s.needsRedraw then
    { state := s, calls := [], ret := none }
  else
    let r := boundingRect s
    if r.w = 0 ∨ r.h = 0 then
      { state := s, calls := [clearCanvas s], ret := none }
    else
      { state := { s with needsRedraw := false },
        calls := clearCanvas s :: (pathCalls (K s.SQRT2) (finalRect s) ++
                   paintCalls s.config.shapeType),
        ret := none }

/-- The host calls of `if (timer) { clearInterval(timer); timer = null; }`, as it
stands in `mouseup` and `keydown`; the variable is `null` afterwards either way. -/
def clearTimer (timer : Option Nat) : List (HostCall α) :=
  match timer with
  | some t => [HostCall.clearInterval t]
  | none => []

/-- The handler `this.mouseup`. -/
def mouseup (s : State α) : Result α :=
  if s.mouse.x = s.x0 ∧ s.mouse.y = s.y0 then
    { state := s, calls := [], ret := some true }
  else
    let d := draw { s with timer := none }
    { state := d.state,
      calls := clearTimer s.timer ++ d.calls ++
        [HostCall.layerUpdate, HostCall.statusShow "ellipseActive"],
      ret := some true }

/-- The handler `this.keydown`. -/
def keydown (ev : Event) (s : State α) : Result α :=
  if !s.mouse.buttonDown ∨ ev.kid_ ≠ "Escape" then
    { state := s, calls := [], ret := some false }
  else
    { state := { s with timer := none, needsRedraw := false,
                        mouse := { s.mouse with buttonDown := false } },
      calls := clearTimer s.timer ++ [clearCanvas s, HostCall.statusShow "ellipseActive"],
      ret := some true }

/-- One thing that can happen to a tool instance: the host moves the pointer
(it owns `app.mouse`), or one of the tool's functions is called. -/
inductive Step (α : Type) where
  | pointer (x y : α) (buttonDown : Bool)
  | mousedown (ev : Event)
  | mousemove (ev : Event)
  | draw
  | mouseup
  | keydown (ev : Event)
  | deactivate
  deriving DecidableEq, Repr

/-- The effect of one step. -/
def step (st : Step α) (s : State α) : Result α :=
  match st with
  | Step.pointer x y b =>
    { state := { s with mouse := { x := x, y := y, buttonDown := b } }, calls := [], ret := none }
  | Step.mousedown ev => mousedown ev s
  | Step.mousemove ev => mousemove ev s
  | Step.draw => draw s
  | Step.mouseup => mouseup s
  | Step.keydown ev => keydown ev s
  | Step.deactivate => deactivate s

/-- The state after a sequence of steps, executed left to right. -/
def run (steps : List (Step α)) (s : State α) : State α :=
  steps.foldl (fun acc st => (step st acc).state) s

/-- The steps that occur while a drag is in progress and the button is held:
pointer motion reported by the host, `mousemove` and the timer's `draw`. -/
def Step.isMoveOrDraw : Step α → Bool
  | Step.pointer _ _ _ => true
  | Step.mousemove _ => true
  | Step.draw => true
  | _ => false

/-- The two control points `(cp1x, cp1y)`, `(cp2x, cp2y)` of every
`bezierCurveTo` call of a trace, in call order. -/
def controlPoints : List (HostCall α) → List (α × α)
  | [] => []
  | HostCall.bezierCurveTo cp1x cp1y cp2x cp2y _ _ :: cs =>
    (cp1x, cp1y) :: (cp2x, cp2y) :: controlPoints cs
  | _ :: cs => controlPoints cs

/-- A freshly constructed tool used in the worked examples: pointer at `(10,10)`,
button up, a `200 x 100` image, fill and stroke, 25 ms between redraws. -/
def idle (SQRT2 : α) : State α :=
  initial { x := 10, y := 10, buttonDown := false } { width := 200, height := 100 }
    { shapeType := "both", toolDrawDelay := 25 } SQRT2 1

/-- The drag used in the worked examples: anchor `(10,10)`, pointer at
`(110,60)` with the button down, a running timer and a pending redraw, as left
by `mousedown` at `(10,10)` followed by a `mousemove` to `(110,60)`. -/
def sampleDrag (SQRT2 : α) (shift : Bool) : State α :=
  { timer := some 1, shiftKey := shift, needsRedraw := true, x0 := 10, y0 := 10,
    mouse := { x := 110, y := 60, buttonDown := true },
    image := { width := 200, height := 100 },
    config := { shapeType := "both", toolDrawDelay := 25 },
    SQRT2 := SQRT2, nextHandle := 2 }

/-- The host calls of a sequence of steps, in the order they are made. -/
def runCalls : List (Step α) → State α → List (HostCall α)
  | [], _ => []
  | st :: rest, s => (step st s).calls ++ runCalls rest (step st s).state

/-- The host's table of live intervals after a list of calls, starting from the
table `active`: `setInterval` enters the handle it returned, `clearInterval`
removes its argument, every other call leaves the table alone. -/
def intervalsAfter (active : List Nat) : List (HostCall α) → List Nat
  | [] => active
  | HostCall.setInterval _ h :: cs => intervalsAfter (active ++ [h]) cs
  | HostCall.clearInterval h :: cs => intervalsAfter (active.filter (fun a => a ≠ h)) cs
  | _ :: cs => intervalsAfter active cs

/-- The intervals created by `setInterval` and not yet passed to
`clearInterval`, for a trace that starts with no live interval. -/
def activeIntervals (calls : List (HostCall α)) : List Nat :=
  intervalsAfter [] calls

/-- The sign of a number as a number: `1`, `-1` or `0`. -/
def sgn (a : α) : α :=
  if 0 < a then 1 else if a < 0 then -1 else 0

/-- The constrained square in reference form: the axis-aligned square with one
corner at the anchor `(x0,y0)` and the opposite corner at
`(x0 + sgn(mx-x0)*s, y0 + sgn(my-y0)*s)`, `s = max |mx-x0| |my-y0|`. -/
def referenceSquare (s : State α) : Rect α :=
  let side := max |s.mouse.x - s.x0| |s.mouse.y - s.y0|
  let x1 := s.x0 + sgn (s.mouse.x - s.x0) * side
  let y1 := s.y0 + sgn (s.mouse.y - s.y0) * side
  { rectx0 := min s.x0 x1, recty0 := min s.y0 y1,
    rectx1 := max s.x0 x1, recty1 := max s.y0 y1,
    w := side, h := side }

/-- Every point passed to `moveTo` and `bezierCurveTo` in a trace: the start
point, and for each curve its two control points and its end point. -/
def pathPoints : List (HostCall α) → List (α × α)
  | [] => []
  | HostCall.moveTo x y :: cs => (x, y) :: pathPoints cs
  | HostCall.bezierCurveTo cp1x cp1y cp2x cp2y x y :: cs =>
    (cp1x, cp1y) :: (cp2x, cp2y) :: (x, y) :: pathPoints cs
  | _ :: cs => pathPoints cs

/-- One coordinate of the point at parameter `t` of the cubic Bézier curve with
start `a`, control values `b`, `c` and end `d`. -/
def cubicBezier (t a b c d : α) : α :=
  (1 - t) ^ 3 * a + 3 * (1 - t) ^ 2 * t * b + 3 * (1 - t) * t ^ 2 * c + t ^ 3 * d

/-- The cubic segments a trace adds to the path, each as start point, first and
second control point and end point; `cur` is the pen position (`none` while the
path is empty, when the canvas starts a curve at its first control point). -/
def segmentsFrom (cur : Option (α × α)) :
    List (HostCall α) → List ((α × α) × (α × α) × (α × α) × (α × α))
  | [] => []
  | HostCall.beginPath :: cs => segmentsFrom none cs
  | HostCall.moveTo x y :: cs => segmentsFrom (some (x, y)) cs
  | HostCall.bezierCurveTo cp1x cp1y cp2x cp2y x y :: cs =>
    (cur.getD (cp1x, cp1y), (cp1x, cp1y), (cp2x, cp2y), (x, y)) :: segmentsFrom (some (x, y)) cs
  | _ :: cs => segmentsFrom cur cs

/-- The point `p` lies in the closed rectangle `[rectx0, rectx1] x [recty0, recty1]`. -/
def Rect.contains (r : Rect α) (p : α × α) : Prop :=
  r.rectx0 ≤ p.1 ∧ p.1 ≤ r.rectx1 ∧ r.recty0 ≤ p.2 ∧ p.2 ≤ r.recty1

instance Rect.decidableContains (r : Rect α) (p : α × α) : Decidable (r.contains p) := by
  unfold Rect.contains
  infer_instance

end Model

section Trace

variable {α : Type}

theorem controlPoints_paintCalls (shapeType : String) :
    controlPoints (paintCalls shapeType : List (HostCall α)) = [] := by
  unfold paintCalls
  split_ifs <;> rfl

theorem clearTimer_calls (β : Type) (t : Option Nat) :
    HostCall.layerUpdate ∉ (clearTimer t : List (HostCall β)) ∧
    (∀ m, HostCall.statusShow m ∉ (clearTimer t : List (HostCall β))) := by
  cases t <;> simp [clearTimer]

theorem mousedown_state (ev : Event) (s : State α) :
    (mousedown ev s).state.timer ≠ none ∧ (mousedown ev s).state.x0 = s.mouse.x ∧
    (mousedown ev s).state.y0 = s.mouse.y := by
  unfold mousedown
  cases h : s.timer <;> simp [h]

theorem intervalsAfter_append (active : List Nat) (xs ys : List (HostCall α)) :
    intervalsAfter active (xs ++ ys) = intervalsAfter (intervalsAfter active xs) ys := by
  induction xs generalizing active with
  | nil => rfl
  | cons c cs ih => cases c <;> simp [intervalsAfter, ih]

/-- Calls other than `setInterval` and `clearInterval` leave the table alone. -/
theorem intervalsAfter_of_not_mem (active : List Nat) (cs : List (HostCall α))
    (h1 : ∀ d t, HostCall.setInterval d t ∉ cs) (h2 : ∀ t, HostCall.clearInterval t ∉ cs) :
    intervalsAfter active cs = active := by
  induction cs with
  | nil => rfl
  | cons c cs ih =>
    have ih' := ih (fun d t hm => h1 d t (List.mem_cons_of_mem _ hm))
      (fun t hm => h2 t (List.mem_cons_of_mem _ hm))
    cases c with
    | setInterval d t => exact absurd (List.mem_cons_self _ _) (h1 d t)
    | clearInterval t => exact absurd (List.mem_cons_self _ _) (h2 t)
    | _ => simpa [intervalsAfter] using ih'

/-- Clearing the tool's timer empties a table that holds just that timer. -/
theorem intervalsAfter_clearTimer (β : Type) (t : Option Nat) :
    intervalsAfter t.toList (clearTimer t : List (HostCall β)) = [] := by
  cases t <;> simp [clearTimer, intervalsAfter]

theorem pathPoints_paintCalls (shapeType : String) :
    pathPoints (paintCalls shapeType : List (HostCall α)) = [] := by
  unfold paintCalls
  split_ifs <;> rfl

theorem segmentsFrom_paintCalls (cur : Option (α × α)) (shapeType : String) :
    segmentsFrom cur (paintCalls shapeType : List (HostCall α)) = [] := by
  unfold paintCalls
  split_ifs <;> rfl

end Trace

section Facts

variable {α : Type} [LinearOrderedField α]

/-- The sample drag is the state a fresh tool reaches by `mousedown` at `(10,10)`,
pointer motion to `(110,60)` and the `mousemove` that reports it. -/
theorem sampleDrag_reachable (SQRT2 : α) (shift : Bool) :
    run [Step.mousedown { shiftKey := shift, kid_ := "" }, Step.pointer 110 60 true,
      Step.mousemove { shiftKey := shift, kid_ := "" }] (idle SQRT2) = sampleDrag SQRT2 shift :=
  rfl

/-! ## Basic facts about `draw` -/

theorem boundingRect_w (s : State α) : (boundingRect s).w = |s.mouse.x - s.x0| := by
  simp only [boundingRect]
  exact max_sub_min_eq_abs' _ _

theorem boundingRect_h (s : State α) : (boundingRect s).h = |s.mouse.y - s.y0| := by
  simp only [boundingRect]
  exact max_sub_min_eq_abs' _ _

theorem boundingRect_w_pos (s : State α) (hx : s.mouse.x ≠ s.x0) : 0 < (boundingRect s).w := by
  rw [boundingRect_w]
  exact abs_pos.mpr (sub_ne_zero.mpr hx)

theorem boundingRect_h_pos (s : State α) (hy : s.mouse.y ≠ s.y0) : 0 < (boundingRect s).h := by
  rw [boundingRect_h]
  exact abs_pos.mpr (sub_ne_zero.mpr hy)

/-- A dirty, non-degenerate `draw` runs to the end of the function. -/
theorem draw_dirty (s : State α) (hd : s.needsRedraw = true)
    (hx : s.mouse.x ≠ s.x0) (hy : s.mouse.y ≠ s.y0) :
    draw s =
      { state := { s with needsRedraw := false },
        calls := clearCanvas s :: (pathCalls (K s.SQRT2) (finalRect s) ++
                   paintCalls s.config.shapeType),
        ret := none } := by
  have hw := (boundingRect_w_pos s hx).ne'
  have hh := (boundingRect_h_pos s hy).ne'
  simp [draw, hd, hw, hh]

/-- A dirty, degenerate `draw` only clears the canvas and keeps the state. -/
theorem draw_degenerate (s : State α) (hd : s.needsRedraw = true)
    (hz : s.mouse.x = s.x0 ∨ s.mouse.y = s.y0) :
    draw s = { state := s, calls := [clearCanvas s], ret := none } := by
  have h : (boundingRect s).w = 0 ∨ (boundingRect s).h = 0 := by
    rw [boundingRect_w, boundingRect_h]
    rcases hz with h | h
    · left; simp [h]
    · right; simp [h]
  simp [draw, hd, h]

/-- The square of a constrained drag, in closed form. -/
theorem finalRect_shift (s : State α) (hs : s.shiftKey = true)
    (hx : s.mouse.x ≠ s.x0) (hy : s.mouse.y ≠ s.y0) :
    (finalRect s).w = max |s.mouse.x - s.x0| |s.mouse.y - s.y0| ∧
    (finalRect s).h = max |s.mouse.x - s.x0| |s.mouse.y - s.y0| ∧
    (finalRect s).rectx1 - (finalRect s).rectx0 = (finalRect s).w ∧
    (finalRect s).recty1 - (finalRect s).recty0 = (finalRect s).h ∧
    ((finalRect s).rectx0 = s.x0 ∨ (finalRect s).rectx1 = s.x0) ∧
    ((finalRect s).recty0 = s.y0 ∨ (finalRect s).recty1 = s.y0) := by
  have hw := boundingRect_w s
  have hh := boundingRect_h s
  simp only [finalRect, hs, if_true, constrainCircle]
  rw [← hw, ← hh]
  simp only [boundingRect] at hw hh ⊢
  rcases lt_or_gt_of_ne hx with hx1 | hx1 <;> rcases lt_or_gt_of_ne hy with hy1 | hy1 <;>
    simp only [min_eq_left hx1.le, max_eq_right hx1.le, min_eq_right hx1.le, max_eq_left hx1.le,
      min_eq_left hy1.le, max_eq_right hy1.le, min_eq_right hy1.le, max_eq_left hy1.le] <;>
    split_ifs <;> dsimp only <;> refine ⟨?_, ?_, ?_, ?_, ?_, ?_⟩ <;>
    first
      | linarith
      | (rw [max_eq_left (by linarith)])
      | (rw [max_eq_right (by linarith)])
      | (left; linarith)
      | (right; linarith)

/-! ## The circle constraint -/

/-- C1 (as stated, refuted): for the drag with anchor `(10,10)`, pointer `(110,60)` and the
shift flag set, `draw` is dirty and non-degenerate (`w = 100`, `h = 50`), and the
square it uses has side `100`, the larger of the two, not the smaller `h = 50`. -/
theorem circle_side_smaller_counterexample :
    (sampleDrag (7/5) true : State ℚ).shiftKey = true ∧
    (sampleDrag (7/5) true : State ℚ).needsRedraw = true ∧
    (boundingRect (sampleDrag (7/5) true : State ℚ)).w = 100 ∧
    (boundingRect (sampleDrag (7/5) true : State ℚ)).h = 50 ∧
    finalRect (sampleDrag (7/5) true : State ℚ) =
      { rectx0 := 10, recty0 := 10, rectx1 := 110, recty1 := 110, w := 100, h := 100 } ∧
    ¬ ((finalRect (sampleDrag (7/5) true : State ℚ)).w =
        min (boundingRect (sampleDrag (7/5) true : State ℚ)).w
            (boundingRect (sampleDrag (7/5) true : State ℚ)).h) := by
  norm_num [sampleDrag, finalRect, constrainCircle, boundingRect]

/-- C1 (amended): when `draw` runs dirty with the shift flag set on a drag with
`w = |mx-x0| > 0` and `h = |my-y0| > 0`, the rectangle it passes to the path
construction is a square whose side is the larger of `w` and `h` (the smaller
dimension is grown to the larger). -/
theorem circle_constraint_side_is_larger (s : State α) (hs : s.shiftKey = true)
    (hd : s.needsRedraw = true) (hx : 0 < |s.mouse.x - s.x0|) (hy : 0 < |s.mouse.y - s.y0|) :
    (draw s).calls = clearCanvas s :: (pathCalls (K s.SQRT2) (finalRect s) ++
      paintCalls s.config.shapeType) ∧
    (finalRect s).rectx1 - (finalRect s).rectx0 = max |s.mouse.x - s.x0| |s.mouse.y - s.y0| ∧
    (finalRect s).recty1 - (finalRect s).recty0 = max |s.mouse.x - s.x0| |s.mouse.y - s.y0| ∧
    (finalRect s).w = max |s.mouse.x - s.x0| |s.mouse.y - s.y0| ∧
    (finalRect s).h = max |s.mouse.x - s.x0| |s.mouse.y - s.y0| := by
  have hx' : s.mouse.x ≠ s.x0 := sub_ne_zero.mp (abs_pos.mp hx)
  have hy' : s.mouse.y ≠ s.y0 := sub_ne_zero.mp (abs_pos.mp hy)
  obtain ⟨h1, h2, h3, h4, -, -⟩ := finalRect_shift s hs hx' hy'
  refine ⟨?_, ?_, ?_, h1, h2⟩
  · rw [draw_dirty s hd hx' hy']
  · rw [h3, h1]
  · rw [h4, h2]

/-- C1 (amended), at anchor `(10,10)` and pointer `(110,60)`: the side is
`max 100 50 = 100`, that is `w`. -/
theorem circle_constraint_side_is_larger_witness :
    (finalRect (sampleDrag (7/5) true : State ℚ)).rectx1 -
      (finalRect (sampleDrag (7/5) true : State ℚ)).rectx0 = 100 ∧
    (finalRect (sampleDrag (7/5) true : State ℚ)).recty1 -
      (finalRect (sampleDrag (7/5) true : State ℚ)).recty0 = 100 ∧
    (finalRect (sampleDrag (7/5) true : State ℚ)).w = 100 ∧
    (finalRect (sampleDrag (7/5) true : State ℚ)).h = 100 := by
  have h := circle_constraint_side_is_larger (sampleDrag (7/5) true : State ℚ) rfl rfl
    (by norm_num [sampleDrag]) (by norm_num [sampleDrag])
  have e : max |(sampleDrag (7/5) true : State ℚ).mouse.x - (sampleDrag (7/5) true : State ℚ).x0|
      |(sampleDrag (7/5) true : State ℚ).mouse.y - (sampleDrag (7/5) true : State ℚ).y0| = 100 := by
    norm_num [sampleDrag]
  rw [e] at h
  exact h.2

/-- C2: for every anchor and pointer that differ in both coordinates, after the
shift-key adjustment of a dirty `draw` the rectangle used for the path satisfies
`rectx1-rectx0 = recty1-recty0 = w = h`, and the anchor `(x0,y0)` is one of its
four corners. -/
theorem circle_constraint_keeps_anchor (s : State α) (hs : s.shiftKey = true)
    (hd : s.needsRedraw = true) (hx : s.mouse.x ≠ s.x0) (hy : s.mouse.y ≠ s.y0) :
    (draw s).calls = clearCanvas s :: (pathCalls (K s.SQRT2) (finalRect s) ++
      paintCalls s.config.shapeType) ∧
    (finalRect s).rectx1 - (finalRect s).rectx0 = (finalRect s).recty1 - (finalRect s).recty0 ∧
    (finalRect s).recty1 - (finalRect s).recty0 = (finalRect s).w ∧
    (finalRect s).w = (finalRect s).h ∧
    ((finalRect s).rectx0 = s.x0 ∨ (finalRect s).rectx1 = s.x0) ∧
    ((finalRect s).recty0 = s.y0 ∨ (finalRect s).recty1 = s.y0) := by
  obtain ⟨h1, h2, h3, h4, h5, h6⟩ := finalRect_shift s hs hx hy
  refine ⟨?_, ?_, ?_, ?_, h5, h6⟩
  · rw [draw_dirty s hd hx hy]
  · rw [h3, h4, h1, h2]
  · rw [h4, h2, h1]
  · rw [h1, h2]

/-- C2 at anchor `(10,10)`, pointer `(110,60)`: the square is `(10,10)-(110,110)`
and the anchor is its top-left corner. -/
theorem circle_constraint_keeps_anchor_witness :
    (draw (sampleDrag (7/5) true : State ℚ)).calls =
      clearCanvas (sampleDrag (7/5) true : State ℚ) ::
        (pathCalls (K (sampleDrag (7/5) true : State ℚ).SQRT2)
            (finalRect (sampleDrag (7/5) true : State ℚ)) ++
          paintCalls (sampleDrag (7/5) true : State ℚ).config.shapeType) ∧
    (finalRect (sampleDrag (7/5) true : State ℚ)).rectx1 -
        (finalRect (sampleDrag (7/5) true : State ℚ)).rectx0 =
      (finalRect (sampleDrag (7/5) true : State ℚ)).recty1 -
        (finalRect (sampleDrag (7/5) true : State ℚ)).recty0 ∧
    (finalRect (sampleDrag (7/5) true : State ℚ)).recty1 -
        (finalRect (sampleDrag (7/5) true : State ℚ)).recty0 =
      (finalRect (sampleDrag (7/5) true : State ℚ)).w ∧
    (finalRect (sampleDrag (7/5) true : State ℚ)).w =
      (finalRect (sampleDrag (7/5) true : State ℚ)).h ∧
    ((finalRect (sampleDrag (7/5) true : State ℚ)).rectx0 = 10 ∨
      (finalRect (sampleDrag (7/5) true : State ℚ)).rectx1 = 10) ∧
    ((finalRect (sampleDrag (7/5) true : State ℚ)).recty0 = 10 ∨
      (finalRect (sampleDrag (7/5) true : State ℚ)).recty1 = 10) :=
  circle_constraint_keeps_anchor (sampleDrag (7/5) true : State ℚ) rfl rfl
    (by norm_num [sampleDrag]) (by norm_num [sampleDrag])

/-! ## The Bézier path -/

/-- The rectangle passed to the path construction is consistent and non-degenerate. -/
theorem finalRect_dims (s : State α) (hx : s.mouse.x ≠ s.x0) (hy : s.mouse.y ≠ s.y0) :
    (finalRect s).rectx1 = (finalRect s).rectx0 + (finalRect s).w ∧
    (finalRect s).recty1 = (finalRect s).recty0 + (finalRect s).h ∧
    0 < (finalRect s).w ∧ 0 < (finalRect s).h := by
  have hw := boundingRect_w_pos s hx
  have hh := boundingRect_h_pos s hy
  cases hs : s.shiftKey with
  | true =>
    obtain ⟨h1, h2, h3, h4, -, -⟩ := finalRect_shift s hs hx hy
    rw [boundingRect_w] at hw
    rw [boundingRect_h] at hh
    refine ⟨by linarith, by linarith, ?_, ?_⟩
    · rw [h1]; exact lt_max_of_lt_left hw
    · rw [h2]; exact lt_max_of_lt_left hw
  | false =>
    have e : finalRect s = boundingRect s := by simp [finalRect, hs]
    rw [e]
    refine ⟨?_, ?_, hw, hh⟩ <;> simp [boundingRect]

/-- The eight control points of a dirty, non-degenerate `draw`, in call order. -/
theorem controlPoints_draw (s : State α) (hd : s.needsRedraw = true)
    (hx : s.mouse.x ≠ s.x0) (hy : s.mouse.y ≠ s.y0) :
    controlPoints (draw s).calls =
      [ (centreX (finalRect s) + radiusX (finalRect s) * K s.SQRT2, (finalRect s).recty0),
        ((finalRect s).rectx1, centreY (finalRect s) - radiusY (finalRect s) * K s.SQRT2),
        ((finalRect s).rectx1, centreY (finalRect s) + radiusY (finalRect s) * K s.SQRT2),
        (centreX (finalRect s) + radiusX (finalRect s) * K s.SQRT2, (finalRect s).recty1),
        (centreX (finalRect s) - radiusX (finalRect s) * K s.SQRT2, (finalRect s).recty1),
        ((finalRect s).rectx0, centreY (finalRect s) + radiusY (finalRect s) * K s.SQRT2),
        ((finalRect s).rectx0, centreY (finalRect s) - radiusY (finalRect s) * K s.SQRT2),
        (centreX (finalRect s) - radiusX (finalRect s) * K s.SQRT2, (finalRect s).recty0) ] := by
  rw [draw_dirty s hd hx hy]
  simp [pathCalls, controlPoints, controlPoints_paintCalls]

/-- C4: on every dirty non-degenerate `draw` the calls after the clear are exactly
`beginPath`, `moveTo` at the top-mid point `(cx, recty0)`, and four
`bezierCurveTo` segments ending, in order, at the midpoints of the right, bottom,
left and top sides; the last end point is the `moveTo` point, so the path is
closed; the first control point of each segment has a coordinate in common with
the segment's start point and the second with its end point; what follows are
only `fill`, `stroke` and `closePath` calls. -/
theorem path_order_and_closure (s : State α) (hd : s.needsRedraw = true)
    (hx : s.mouse.x ≠ s.x0) (hy : s.mouse.y ≠ s.y0) :
    (draw s).calls =
      [ clearCanvas s,
        HostCall.beginPath,
        HostCall.moveTo (centreX (finalRect s)) (finalRect s).recty0,
        HostCall.bezierCurveTo
          (centreX (finalRect s) + radiusX (finalRect s) * K s.SQRT2) (finalRect s).recty0
          (finalRect s).rectx1 (centreY (finalRect s) - radiusY (finalRect s) * K s.SQRT2)
          (finalRect s).rectx1 (centreY (finalRect s)),
        HostCall.bezierCurveTo
          (finalRect s).rectx1 (centreY (finalRect s) + radiusY (finalRect s) * K s.SQRT2)
          (centreX (finalRect s) + radiusX (finalRect s) * K s.SQRT2) (finalRect s).recty1
          (centreX (finalRect s)) (finalRect s).recty1,
        HostCall.bezierCurveTo
          (centreX (finalRect s) - radiusX (finalRect s) * K s.SQRT2) (finalRect s).recty1
          (finalRect s).rectx0 (centreY (finalRect s) + radiusY (finalRect s) * K s.SQRT2)
          (finalRect s).rectx0 (centreY (finalRect s)),
        HostCall.bezierCurveTo
          (finalRect s).rectx0 (centreY (finalRect s) - radiusY (finalRect s) * K s.SQRT2)
          (centreX (finalRect s) - radiusX (finalRect s) * K s.SQRT2) (finalRect s).recty0
          (centreX (finalRect s)) (finalRect s).recty0 ] ++
        paintCalls s.config.shapeType ∧
    centreX (finalRect s) = ((finalRect s).rectx0 + (finalRect s).rectx1) / 2 ∧
    centreY (finalRect s) = ((finalRect s).recty0 + (finalRect s).recty1) / 2 ∧
    (∀ c ∈ (paintCalls s.config.shapeType : List (HostCall α)),
      c = HostCall.fill ∨ c = HostCall.stroke ∨ c = HostCall.closePath) := by
  obtain ⟨e1, e2, -, -⟩ := finalRect_dims s hx hy
  refine ⟨?_, ?_, ?_, ?_⟩
  · rw [draw_dirty s hd hx hy]
    simp [pathCalls]
  · rw [e1]; unfold centreX radiusX; ring
  · rw [e2]; unfold centreY radiusY; ring
  · intro c hc
    unfold paintCalls at hc
    split_ifs at hc <;> simp at hc <;> tauto

/-- C4 at anchor `(10,10)`, pointer `(110,60)`, no shift: the whole call list. -/
theorem path_order_and_closure_witness :
    (draw (sampleDrag (7/5) false : State ℚ)).calls =
      [ HostCall.clearRect 0 0 200 100,
        HostCall.beginPath,
        HostCall.moveTo 60 10,
        HostCall.bezierCurveTo (60 + 50 * (8/15)) 10 110 (35 - 25 * (8/15)) 110 35,
        HostCall.bezierCurveTo 110 (35 + 25 * (8/15)) (60 + 50 * (8/15)) 60 60 60,
        HostCall.bezierCurveTo (60 - 50 * (8/15)) 60 10 (35 + 25 * (8/15)) 10 35,
        HostCall.bezierCurveTo 10 (35 - 25 * (8/15)) (60 - 50 * (8/15)) 10 60 10,
        HostCall.fill, HostCall.stroke, HostCall.closePath ] := by
  have h := (path_order_and_closure (sampleDrag (7/5) false : State ℚ) rfl
    (by norm_num [sampleDrag]) (by norm_num [sampleDrag])).1
  have e : finalRect (sampleDrag (7/5) false : State ℚ) =
      { rectx0 := 10, recty0 := 10, rectx1 := 110, recty1 := 60, w := 100, h := 50 } := by
    norm_num [finalRect, boundingRect, sampleDrag]
  have hp : (paintCalls (sampleDrag (7/5) false : State ℚ).config.shapeType :
      List (HostCall ℚ)) = [HostCall.fill, HostCall.stroke, HostCall.closePath] := by
    decide
  rw [h, e, hp]
  norm_num [centreX, centreY, radiusX, radiusY, K, sampleDrag, clearCanvas]

/-! ## Unconstrained geometry -/

/-- C5: with the shift flag clear and anchor and pointer different in both
coordinates, a dirty `draw` uses the rectangle
`(min x0 mx, min y0 my)-(max x0 mx, max y0 my)`, centre `((x0+mx)/2, (y0+my)/2)`
and radii `|mx-x0|/2`, `|my-y0|/2`; exchanging anchor and pointer gives the same
rectangle. -/
theorem unconstrained_geometry (s : State α) (hs : s.shiftKey = false)
    (hd : s.needsRedraw = true) (hx : s.mouse.x ≠ s.x0) (hy : s.mouse.y ≠ s.y0) :
    (draw s).calls = clearCanvas s :: (pathCalls (K s.SQRT2) (finalRect s) ++
      paintCalls s.config.shapeType) ∧
    finalRect s =
      { rectx0 := min s.x0 s.mouse.x, recty0 := min s.y0 s.mouse.y,
        rectx1 := max s.x0 s.mouse.x, recty1 := max s.y0 s.mouse.y,
        w := |s.mouse.x - s.x0|, h := |s.mouse.y - s.y0| } ∧
    centreX (finalRect s) = (s.x0 + s.mouse.x) / 2 ∧
    centreY (finalRect s) = (s.y0 + s.mouse.y) / 2 ∧
    radiusX (finalRect s) = |s.mouse.x - s.x0| / 2 ∧
    radiusY (finalRect s) = |s.mouse.y - s.y0| / 2 ∧
    finalRect { s with x0 := s.mouse.x, y0 := s.mouse.y,
                       mouse := { s.mouse with x := s.x0, y := s.y0 } } = finalRect s := by
  have e : finalRect s = boundingRect s := by simp [finalRect, hs]
  have hw := boundingRect_w s
  have hh := boundingRect_h s
  have hmx := min_add_max s.mouse.x s.x0
  have hmy := min_add_max s.mouse.y s.y0
  refine ⟨?_, ?_, ?_, ?_, ?_, ?_, ?_⟩
  · rw [draw_dirty s hd hx hy]
  · rw [e, ← hw, ← hh]
    simp [boundingRect, min_comm, max_comm]
  · rw [e]
    simp only [centreX, radiusX, boundingRect] at hmx ⊢
    linarith
  · rw [e]
    simp only [centreY, radiusY, boundingRect] at hmy ⊢
    linarith
  · rw [e]; unfold radiusX; rw [hw]
  · rw [e]; unfold radiusY; rw [hh]
  · simp [finalRect, hs, boundingRect, min_comm, max_comm]

/-- C5 at anchor `(10,10)`, pointer `(110,60)`: rectangle `(10,10)-(110,60)`,
centre `(60,35)`, `rx = 50`, `ry = 25`. -/
theorem unconstrained_geometry_witness :
    finalRect (sampleDrag (7/5) false : State ℚ) =
      { rectx0 := 10, recty0 := 10, rectx1 := 110, recty1 := 60, w := 100, h := 50 } ∧
    centreX (finalRect (sampleDrag (7/5) false : State ℚ)) = 60 ∧
    centreY (finalRect (sampleDrag (7/5) false : State ℚ)) = 35 ∧
    radiusX (finalRect (sampleDrag (7/5) false : State ℚ)) = 50 ∧
    radiusY (finalRect (sampleDrag (7/5) false : State ℚ)) = 25 := by
  have h := unconstrained_geometry (sampleDrag (7/5) false : State ℚ) rfl rfl
    (by norm_num [sampleDrag]) (by norm_num [sampleDrag])
  obtain ⟨-, h1, h2, h3, h4, h5, -⟩ := h
  refine ⟨h1.trans ?_, h2.trans ?_, h3.trans ?_, h4.trans ?_, h5.trans ?_⟩ <;>
    norm_num [sampleDrag]

/-! ## Gesture end, cancel and deactivation -/

/-- The calls of `draw` go to the drawing context only. -/
theorem draw_calls_context (s : State α) :
    HostCall.layerUpdate ∉ (draw s).calls ∧
    (∀ m, HostCall.statusShow m ∉ (draw s).calls) ∧
    (∀ t, HostCall.clearInterval t ∉ (draw s).calls) ∧
    (∀ d t, HostCall.setInterval d t ∉ (draw s).calls) := by
  unfold draw
  by_cases h1 : (!s.needsRedraw) = true
  · simp [h1]
  · by_cases h2 : (boundingRect s).w = 0 ∨ (boundingRect s).h = 0
    · simp [h1, h2, clearCanvas]
    · simp only [h1, h2, if_false, clearCanvas, pathCalls, paintCalls]
      split_ifs <;> simp

/-- The function `draw` writes `needsRedraw` only. -/
theorem draw_state (s : State α) :
    (draw s).state = s ∨ (draw s).state = { s with needsRedraw := false } := by
  unfold draw
  by_cases h1 : (!s.needsRedraw) = true
  · left; simp [h1]
  · by_cases h2 : (boundingRect s).w = 0 ∨ (boundingRect s).h = 0
    · left; simp [h1, h2]
    · right; simp [h1, h2]

theorem draw_timer (s : State α) : (draw s).state.timer = s.timer := by
  rcases draw_state s with h | h <;> rw [h]

/-- C6: when the pointer differs from the anchor in `x` or in `y`, `mouseup`
leaves `timer` absent, its host calls are the `clearInterval` of the old handle
(if there was one), then the calls of `draw` (run with the timer already
cleared), then `layerUpdate`, then `statusShow('ellipseActive')`; `layerUpdate`
and that status call occur exactly once; the state is the one `draw` leaves, and
the handler returns `true`. -/
theorem mouseup_commits (s : State α) (h : s.mouse.x ≠ s.x0 ∨ s.mouse.y ≠ s.y0) :
    (mouseup s).state.timer = none ∧
    (mouseup s).state = (draw { s with timer := none }).state ∧
    (mouseup s).calls =
      clearTimer s.timer ++ (draw { s with timer := none }).calls ++
        [HostCall.layerUpdate, HostCall.statusShow "ellipseActive"] ∧
    (clearTimer s.timer : List (HostCall α)) = (s.timer.toList.map HostCall.clearInterval) ∧
    (mouseup s).calls.count HostCall.layerUpdate = 1 ∧
    (mouseup s).calls.count (HostCall.statusShow "ellipseActive") = 1 ∧
    (mouseup s).ret = some true := by
  have hne : ¬ (s.mouse.x = s.x0 ∧ s.mouse.y = s.y0) := by
    rintro ⟨h1, h2⟩
    rcases h with h | h
    · exact h h1
    · exact h h2
  have hm : mouseup s =
      { state := (draw { s with timer := none }).state,
        calls := clearTimer s.timer ++ (draw { s with timer := none }).calls ++
          [HostCall.layerUpdate, HostCall.statusShow "ellipseActive"],
        ret := some true } := by
    simp [mouseup, hne]
  obtain ⟨d1, d2, -, -⟩ := draw_calls_context { s with timer := none }
  obtain ⟨t1, t2⟩ := clearTimer_calls α s.timer
  rw [hm]
  refine ⟨?_, rfl, rfl, ?_, ?_, ?_, rfl⟩
  · exact draw_timer _
  · cases s.timer <;> rfl
  · simp [List.count_eq_zero_of_not_mem d1, List.count_eq_zero_of_not_mem t1]
  · simp [List.count_eq_zero_of_not_mem (d2 _), List.count_eq_zero_of_not_mem (t2 _)]

/-- C6 at anchor `(10,10)`, pointer `(110,60)` with timer `1` running. -/
theorem mouseup_commits_witness :
    (mouseup (sampleDrag (7/5) false : State ℚ)).state.timer = none ∧
    (mouseup (sampleDrag (7/5) false : State ℚ)).calls =
      HostCall.clearInterval 1 ::
        ((draw { (sampleDrag (7/5) false : State ℚ) with timer := none }).calls ++
          [HostCall.layerUpdate, HostCall.statusShow "ellipseActive"]) ∧
    (mouseup (sampleDrag (7/5) false : State ℚ)).calls.count HostCall.layerUpdate = 1 ∧
    (mouseup (sampleDrag (7/5) false : State ℚ)).calls.count
      (HostCall.statusShow "ellipseActive") = 1 ∧
    (mouseup (sampleDrag (7/5) false : State ℚ)).ret = some true := by
  have h := mouseup_commits (sampleDrag (7/5) false : State ℚ)
    (Or.inl (by norm_num [sampleDrag]))
  obtain ⟨h1, -, h3, -, h5, h6, h7⟩ := h
  exact ⟨h1, h3, h5, h6, h7⟩

theorem run_cons (st : Step α) (steps : List (Step α)) (s : State α) :
    run (st :: steps) s = run steps (step st s).state := rfl

theorem run_append (xs ys : List (Step α)) (s : State α) :
    run (xs ++ ys) s = run ys (run xs s) := by
  simp [run, List.foldl_append]

/-- Pointer motion, `mousemove` and `draw` leave the timer and the anchor alone. -/
theorem step_isMoveOrDraw (st : Step α) (s : State α) (h : st.isMoveOrDraw = true) :
    (step st s).state.timer = s.timer ∧ (step st s).state.x0 = s.x0 ∧
    (step st s).state.y0 = s.y0 := by
  cases st with
  | pointer x y b => simp [step]
  | mousemove ev => simp [step, mousemove]
  | draw =>
    simp only [step]
    rcases draw_state s with e | e <;> rw [e] <;> simp
  | mousedown ev => simp [Step.isMoveOrDraw] at h
  | mouseup => simp [Step.isMoveOrDraw] at h
  | keydown ev => simp [Step.isMoveOrDraw] at h
  | deactivate => simp [Step.isMoveOrDraw] at h

theorem run_isMoveOrDraw (mid : List (Step α)) (s : State α)
    (h : ∀ st ∈ mid, st.isMoveOrDraw = true) :
    (run mid s).timer = s.timer ∧ (run mid s).x0 = s.x0 ∧ (run mid s).y0 = s.y0 := by
  induction mid generalizing s with
  | nil => exact ⟨rfl, rfl, rfl⟩
  | cons st mid ih =>
    rw [run_cons]
    obtain ⟨a, b, c⟩ := step_isMoveOrDraw st s (h st (List.mem_cons_self _ _))
    obtain ⟨a', b', c'⟩ := ih (step st s).state (fun x hx => h x (List.mem_cons_of_mem _ hx))
    exact ⟨a'.trans a, b'.trans b, c'.trans c⟩

/-- C7: when the pointer is exactly at the anchor, `mouseup` returns `true`,
makes no host call and leaves the whole state as it was; in particular after
`mousedown`, any number of pointer motions, `mousemove` and `draw` steps, and a
return of the pointer to the anchor, the state satisfies the guard, the timer is
running, and `mouseup` leaves it running. -/
theorem mouseup_zero_drag (s : State α) (hx : s.mouse.x = s.x0) (hy : s.mouse.y = s.y0) :
    (mouseup s).ret = some true ∧ (mouseup s).calls = [] ∧ (mouseup s).state = s ∧
    ∀ (s0 : State α) (ev : Event) (mid : List (Step α)) (b : Bool),
      (∀ st ∈ mid, st.isMoveOrDraw = true) →
      (run (Step.mousedown ev :: mid ++ [Step.pointer s0.mouse.x s0.mouse.y b]) s0).mouse.x =
        (run (Step.mousedown ev :: mid ++ [Step.pointer s0.mouse.x s0.mouse.y b]) s0).x0 ∧
      (run (Step.mousedown ev :: mid ++ [Step.pointer s0.mouse.x s0.mouse.y b]) s0).mouse.y =
        (run (Step.mousedown ev :: mid ++ [Step.pointer s0.mouse.x s0.mouse.y b]) s0).y0 ∧
      (run (Step.mousedown ev :: mid ++ [Step.pointer s0.mouse.x s0.mouse.y b]) s0).timer ≠
        none ∧
      (mouseup (run (Step.mousedown ev :: mid ++
          [Step.pointer s0.mouse.x s0.mouse.y b]) s0)).calls = [] ∧
      (mouseup (run (Step.mousedown ev :: mid ++
          [Step.pointer s0.mouse.x s0.mouse.y b]) s0)).state.timer =
        (mousedown ev s0).state.timer := by
  have guard : ∀ t : State α, t.mouse.x = t.x0 → t.mouse.y = t.y0 →
      mouseup t = { state := t, calls := [], ret := some true } := by
    intro t h1 h2
    simp [mouseup, h1, h2]
  refine ⟨by rw [guard s hx hy], by rw [guard s hx hy], by rw [guard s hx hy], ?_⟩
  intro s0 ev mid b hmid
  obtain ⟨m1, m2, m3⟩ := mousedown_state ev s0
  obtain ⟨r1, r2, r3⟩ := run_isMoveOrDraw mid (mousedown ev s0).state hmid
  have e : run (Step.mousedown ev :: mid ++ [Step.pointer s0.mouse.x s0.mouse.y b]) s0 =
      { run mid (mousedown ev s0).state with
        mouse := { x := s0.mouse.x, y := s0.mouse.y, buttonDown := b } } := by
    rw [List.cons_append, run_cons, run_append]
    rfl
  rw [e]
  have gx : s0.mouse.x = (run mid (mousedown ev s0).state).x0 := by rw [r2, m2]
  have gy : s0.mouse.y = (run mid (mousedown ev s0).state).y0 := by rw [r3, m3]
  have g := guard { run mid (mousedown ev s0).state with
    mouse := { x := s0.mouse.x, y := s0.mouse.y, buttonDown := b } } gx gy
  refine ⟨gx, gy, ?_, ?_, ?_⟩
  · show (run mid (mousedown ev s0).state).timer ≠ none
    rw [r1]; exact m1
  · rw [g]
  · rw [g]
    exact r1

/-- C7 after a drag to `(110,60)` and back to the anchor `(10,10)`: `mouseup`
does nothing and timer `1` is still in place. -/
theorem mouseup_zero_drag_witness :
    (mouseup (run [Step.pointer 10 10 true] (sampleDrag (7/5) false : State ℚ))).ret =
      some true ∧
    (mouseup (run [Step.pointer 10 10 true] (sampleDrag (7/5) false : State ℚ))).calls = [] ∧
    (mouseup (run [Step.pointer 10 10 true] (sampleDrag (7/5) false : State ℚ))).state.timer =
      some 1 := by
  have h := mouseup_zero_drag (run [Step.pointer 10 10 true] (sampleDrag (7/5) false : State ℚ))
    rfl rfl
  obtain ⟨h1, h2, h3, -⟩ := h
  refine ⟨h1, h2, ?_⟩
  rw [h3]
  rfl

/-- What `deactivate` does, case by case on the timer. -/
theorem deactivate_spec (s : State α) :
    (deactivate s).state.timer = none ∧ (deactivate s).ret = some true ∧
    (s.timer ≠ none → (deactivate s).state.needsRedraw = false) ∧
    (s.timer = none → (deactivate s).state = s ∧ (deactivate s).calls = []) := by
  unfold deactivate
  cases h : s.timer <;> simp [h]

/-- C8 (as stated, refuted): two states reachable from the fresh tool after which
`deactivate()` leaves `needsRedraw` true: after a lone `mousemove`, and after a
drag along the `x` axis only, ended by `mouseup`. -/
theorem deactivate_keeps_dirty_counterexample :
    (deactivate (run [Step.mousemove { shiftKey := false, kid_ := "" }]
      (idle (7/5) : State ℚ))).state.needsRedraw = true ∧
    (deactivate (run [Step.mousemove { shiftKey := false, kid_ := "" }]
      (idle (7/5) : State ℚ))).state.timer = none ∧
    (deactivate (run [Step.mousedown { shiftKey := false, kid_ := "" },
        Step.pointer 110 10 true, Step.mousemove { shiftKey := false, kid_ := "" },
        Step.mouseup] (idle (7/5) : State ℚ))).state.needsRedraw = true ∧
    (deactivate (run [Step.mousedown { shiftKey := false, kid_ := "" },
        Step.pointer 110 10 true, Step.mousemove { shiftKey := false, kid_ := "" },
        Step.mouseup] (idle (7/5) : State ℚ))).state.timer = none := by
  refine ⟨rfl, rfl, ?_, ?_⟩ <;>
    norm_num [run, step, idle, initial, mousedown, mousemove, mouseup, draw, deactivate,
      boundingRect]

/-- C8 (amended): in every state reachable from the initial state by `mousedown`,
`mousemove`, `draw`, `mouseup`, `keydown`, `deactivate` calls and pointer motion,
after `deactivate()` no timer is running; `needsRedraw` is false if a timer was
running when `deactivate` was called, and if none was running `deactivate` makes
no host call and leaves the state (its `needsRedraw` included) as it was. -/
theorem deactivate_post_state (steps : List (Step α)) (mouse : Mouse α) (image : Image α)
    (config : Config) (SQRT2 : α) (nextHandle : Nat) :
    (deactivate (run steps (initial mouse image config SQRT2 nextHandle))).state.timer = none ∧
    ((run steps (initial mouse image config SQRT2 nextHandle)).timer ≠ none →
      (deactivate (run steps (initial mouse image config SQRT2 nextHandle))).state.needsRedraw =
        false) ∧
    ((run steps (initial mouse image config SQRT2 nextHandle)).timer = none →
      (deactivate (run steps (initial mouse image config SQRT2 nextHandle))).state =
        run steps (initial mouse image config SQRT2 nextHandle) ∧
      (deactivate (run steps (initial mouse image config SQRT2 nextHandle))).calls = []) := by
  obtain ⟨h1, -, h3, h4⟩ := deactivate_spec (run steps (initial mouse image config SQRT2 nextHandle))
  exact ⟨h1, h3, h4⟩

/-- C9: with the button down and the key `Escape`, `keydown` returns `true`; the
state afterwards differs from the one before only in `timer` (absent),
`needsRedraw` (false) and `mouse.buttonDown` (false), so anchor and shift flag
are unchanged; the host calls are exactly `clearInterval` of the old handle (only
if one existed), `clearRect(0,0,image.width,image.height)` and
`statusShow('ellipseActive')`; no `layerUpdate`, path, fill or stroke call. -/
theorem escape_cancels (ev : Event) (s : State α) (hb : s.mouse.buttonDown = true)
    (hk : ev.kid_ = "Escape") :
    (keydown ev s).ret = some true ∧
    (keydown ev s).state =
      { s with timer := none, needsRedraw := false,
               mouse := { s.mouse with buttonDown := false } } ∧
    (keydown ev s).state.timer = none ∧
    (keydown ev s).state.needsRedraw = false ∧
    (keydown ev s).state.mouse.buttonDown = false ∧
    (keydown ev s).state.x0 = s.x0 ∧ (keydown ev s).state.y0 = s.y0 ∧
    (keydown ev s).state.shiftKey = s.shiftKey ∧
    (keydown ev s).calls =
      s.timer.toList.map HostCall.clearInterval ++
        [HostCall.clearRect 0 0 s.image.width s.image.height,
         HostCall.statusShow "ellipseActive"] ∧
    HostCall.layerUpdate ∉ (keydown ev s).calls ∧
    (∀ c ∈ (keydown ev s).calls,
      (∃ t, s.timer = some t ∧ c = HostCall.clearInterval t) ∨
      c = HostCall.clearRect 0 0 s.image.width s.image.height ∨
      c = HostCall.statusShow "ellipseActive") := by
  have e : keydown ev s =
      { state := { s with timer := none, needsRedraw := false,
                          mouse := { s.mouse with buttonDown := false } },
        calls := clearTimer s.timer ++ [clearCanvas s, HostCall.statusShow "ellipseActive"],
        ret := some true } := by
    simp [keydown, hb, hk]
  rw [e]
  refine ⟨rfl, rfl, rfl, rfl, rfl, rfl, rfl, rfl, ?_, ?_, ?_⟩
  · cases s.timer <;> rfl
  · cases s.timer <;> simp [clearTimer, clearCanvas]
  · cases s.timer <;> simp [clearTimer, clearCanvas]

/-- C9 in the middle of the sample drag: timer `1` is cleared, the canvas is
cleared, the status is shown. -/
theorem escape_cancels_witness :
    (keydown { shiftKey := false, kid_ := "Escape" } (sampleDrag (7/5) true : State ℚ)).ret =
      some true ∧
    (keydown { shiftKey := false, kid_ := "Escape" } (sampleDrag (7/5) true : State ℚ)).calls =
      [HostCall.clearInterval 1, HostCall.clearRect 0 0 200 100,
       HostCall.statusShow "ellipseActive"] ∧
    (keydown { shiftKey := false, kid_ := "Escape" }
      (sampleDrag (7/5) true : State ℚ)).state.timer = none := by
  have h := escape_cancels { shiftKey := false, kid_ := "Escape" }
    (sampleDrag (7/5) true : State ℚ) rfl rfl
  obtain ⟨h1, -, h3, -, -, -, -, -, h9, -, -⟩ := h
  exact ⟨h1, h9, h3⟩

/-- C10: `keydown` returns `true` exactly when `mouse.buttonDown` is true and the
key is `Escape`, and `false` otherwise; whenever it returns `false` it makes no
host call and leaves the whole state (timer, dirty flag, anchor, shift flag and
`mouse.buttonDown` included) unchanged. -/
theorem keydown_filter (ev : Event) (s : State α) :
    ((keydown ev s).ret = some true ↔ (s.mouse.buttonDown = true ∧ ev.kid_ = "Escape")) ∧
    ((keydown ev s).ret = some false ↔ (s.mouse.buttonDown = false ∨ ev.kid_ ≠ "Escape")) ∧
    ((keydown ev s).ret = some false →
      (keydown ev s).calls = [] ∧ (keydown ev s).state = s) := by
  unfold keydown
  by_cases hb : s.mouse.buttonDown = true <;> by_cases hk : ev.kid_ = "Escape" <;>
    simp [hb, hk]

/-! ## The timer -/

/-- Every step keeps the host's table of live intervals equal to the tool's
`timer` variable. -/
theorem step_intervals (st : Step α) (s : State α) :
    intervalsAfter s.timer.toList (step st s).calls = (step st s).state.timer.toList := by
  obtain ⟨-, -, d3, d4⟩ := draw_calls_context s
  cases st with
  | pointer x y b => rfl
  | mousedown ev =>
    simp only [step, mousedown]
    cases h : s.timer <;> simp [h, intervalsAfter]
  | mousemove ev => rfl
  | draw =>
    simp only [step]
    rw [intervalsAfter_of_not_mem _ _ d4 d3, draw_timer]
  | mouseup =>
    simp only [step, mouseup]
    split_ifs
    · rfl
    · obtain ⟨-, -, e3, e4⟩ := draw_calls_context { s with timer := none }
      simp only [intervalsAfter_append, intervalsAfter_clearTimer,
        intervalsAfter_of_not_mem _ _ e4 e3, draw_timer]
      rfl
  | keydown ev =>
    simp only [step, keydown]
    split_ifs
    · rfl
    · simp only [intervalsAfter_append, intervalsAfter_clearTimer]
      rfl
  | deactivate =>
    simp only [step, deactivate]
    cases h : s.timer <;> simp [h, intervalsAfter, clearCanvas]

theorem run_intervals (steps : List (Step α)) (s : State α) :
    intervalsAfter s.timer.toList (runCalls steps s) = (run steps s).timer.toList := by
  induction steps generalizing s with
  | nil => rfl
  | cons st steps ih =>
    rw [runCalls, intervalsAfter_append, step_intervals, ih, run_cons]

/-- C11: for every finite sequence of steps from the initial state (timer
absent), the intervals created by `setInterval` and not yet passed to
`clearInterval` are exactly the content of the tool's `timer` variable: there is
at most one, there is one exactly when `timer` is non-null, and `timer` then
holds that interval's handle. -/
theorem single_timer (steps : List (Step α)) (mouse : Mouse α) (image : Image α)
    (config : Config) (SQRT2 : α) (nextHandle : Nat) :
    activeIntervals (runCalls steps (initial mouse image config SQRT2 nextHandle)) =
      (run steps (initial mouse image config SQRT2 nextHandle)).timer.toList ∧
    (activeIntervals (runCalls steps (initial mouse image config SQRT2 nextHandle))).length ≤ 1 ∧
    ((activeIntervals (runCalls steps (initial mouse image config SQRT2 nextHandle))).length = 1 ↔
      (run steps (initial mouse image config SQRT2 nextHandle)).timer ≠ none) ∧
    (∀ h, (run steps (initial mouse image config SQRT2 nextHandle)).timer = some h ↔
      activeIntervals (runCalls steps (initial mouse image config SQRT2 nextHandle)) = [h]) := by
  have e := run_intervals steps (initial mouse image config SQRT2 nextHandle)
  have e' : activeIntervals (runCalls steps (initial mouse image config SQRT2 nextHandle)) =
      (run steps (initial mouse image config SQRT2 nextHandle)).timer.toList := e
  rw [e']
  cases (run steps (initial mouse image config SQRT2 nextHandle)).timer <;> simp

/-! ## Fill and stroke -/

/-- C12: on every dirty non-degenerate `draw`, `fill` is called once when
`shapeType` is not `'stroke'` and not at all when it is; `stroke` is called once
when `shapeType` is not `'fill'` and not at all when it is; for any value other
than `'fill'` and `'stroke'` the calls end with `fill`, `stroke`, `closePath` in
that order; and at least one of `fill`, `stroke` is called for every value. -/
theorem shape_type_calls (s : State α) (hd : s.needsRedraw = true)
    (hx : s.mouse.x ≠ s.x0) (hy : s.mouse.y ≠ s.y0) :
    (draw s).calls.count HostCall.fill = (if s.config.shapeType = "stroke" then 0 else 1) ∧
    (draw s).calls.count HostCall.stroke = (if s.config.shapeType = "fill" then 0 else 1) ∧
    (s.config.shapeType ≠ "fill" → s.config.shapeType ≠ "stroke" →
      (draw s).calls = clearCanvas s :: (pathCalls (K s.SQRT2) (finalRect s) ++
        [HostCall.fill, HostCall.stroke, HostCall.closePath])) ∧
    1 ≤ (draw s).calls.count HostCall.fill + (draw s).calls.count HostCall.stroke := by
  rw [draw_dirty s hd hx hy]
  have hne : ("stroke" : String) ≠ "fill" := by decide
  have p1 : (pathCalls (K s.SQRT2) (finalRect s)).count HostCall.fill = 0 :=
    List.count_eq_zero_of_not_mem (by simp [pathCalls])
  have p2 : (pathCalls (K s.SQRT2) (finalRect s)).count HostCall.stroke = 0 :=
    List.count_eq_zero_of_not_mem (by simp [pathCalls])
  have c1 : HostCall.fill ≠ clearCanvas s := by simp [clearCanvas]
  have c2 : HostCall.stroke ≠ clearCanvas s := by simp [clearCanvas]
  have f1 : (paintCalls s.config.shapeType : List (HostCall α)).count HostCall.fill =
      (if s.config.shapeType = "stroke" then 0 else 1) := by
    unfold paintCalls
    by_cases h1 : s.config.shapeType = "stroke" <;>
      by_cases h2 : s.config.shapeType = "fill" <;> simp [h1, h2]
  have f2 : (paintCalls s.config.shapeType : List (HostCall α)).count HostCall.stroke =
      (if s.config.shapeType = "fill" then 0 else 1) := by
    unfold paintCalls
    by_cases h1 : s.config.shapeType = "stroke" <;>
      by_cases h2 : s.config.shapeType = "fill" <;> simp [h1, h2]
  have g1 : (clearCanvas s :: (pathCalls (K s.SQRT2) (finalRect s) ++
      paintCalls s.config.shapeType)).count HostCall.fill =
      (if s.config.shapeType = "stroke" then 0 else 1) := by
    rw [List.count_cons_of_ne c1, List.count_append, p1, f1, Nat.zero_add]
  have g2 : (clearCanvas s :: (pathCalls (K s.SQRT2) (finalRect s) ++
      paintCalls s.config.shapeType)).count HostCall.stroke =
      (if s.config.shapeType = "fill" then 0 else 1) := by
    rw [List.count_cons_of_ne c2, List.count_append, p2, f2, Nat.zero_add]
  refine ⟨g1, g2, ?_, ?_⟩
  · intro h2 h1
    simp [paintCalls, h1, h2]
  · show 1 ≤ List.count HostCall.fill _ + List.count HostCall.stroke _
    rw [g1, g2]
    by_cases h1 : s.config.shapeType = "stroke"
    · have h2 : s.config.shapeType ≠ "fill" := fun h => hne (h1.symm.trans h)
      simp [h1, h2]
    · simp [h1]

/-- C12 for the fill-and-stroke setting on the sample drag: both are called once. -/
theorem shape_type_calls_witness :
    (draw (sampleDrag (7/5) false : State ℚ)).calls.count HostCall.fill = 1 ∧
    (draw (sampleDrag (7/5) false : State ℚ)).calls.count HostCall.stroke = 1 ∧
    (draw (sampleDrag (7/5) false : State ℚ)).calls =
      clearCanvas (sampleDrag (7/5) false : State ℚ) ::
        (pathCalls (K (7/5)) (finalRect (sampleDrag (7/5) false : State ℚ)) ++
          [HostCall.fill, HostCall.stroke, HostCall.closePath]) := by
  have h := shape_type_calls (sampleDrag (7/5) false : State ℚ) rfl
    (by norm_num [sampleDrag]) (by norm_num [sampleDrag])
  obtain ⟨h1, h2, h3, -⟩ := h
  have e1 : (sampleDrag (7/5) false : State ℚ).config.shapeType ≠ "stroke" := by decide
  have e2 : (sampleDrag (7/5) false : State ℚ).config.shapeType ≠ "fill" := by decide
  rw [if_neg e1] at h1
  rw [if_neg e2] at h2
  exact ⟨h1, h2, h3 e2 e1⟩

/-! ## Deactivation, gesture start, moves and ticks -/

/-- C13: for every state, the state after `deactivate(); deactivate()` equals the
state after one `deactivate()`, the second call makes no host call, both calls
return `true`, and when no timer is running the first call changes nothing and
makes no host call either. -/
theorem deactivate_idempotent (s : State α) :
    (deactivate (deactivate s).state).state = (deactivate s).state ∧
    (deactivate (deactivate s).state).calls = [] ∧
    (deactivate s).ret = some true ∧
    (deactivate (deactivate s).state).ret = some true ∧
    (s.timer = none → (deactivate s).state = s ∧ (deactivate s).calls = []) := by
  obtain ⟨h1, h2, -, h4⟩ := deactivate_spec s
  obtain ⟨-, k2, -, k4⟩ := deactivate_spec (deactivate s).state
  exact ⟨(k4 h1).1, (k4 h1).2, h2, k2, h4⟩

/-- C14: for every state and event, `mousedown` sets the anchor to the current
pointer, the shift flag to `ev.shiftKey` and `needsRedraw` to false, and returns
`true`; if no timer handle was present it calls `setInterval` with
`config.toolDrawDelay` and stores the handle, otherwise it keeps the handle and
does not call `setInterval`; it calls `statusShow('ellipseMousedown')` once, and
makes no other call (no drawing call). -/
theorem mousedown_starts (ev : Event) (s : State α) :
    (mousedown ev s).state.x0 = s.mouse.x ∧ (mousedown ev s).state.y0 = s.mouse.y ∧
    (mousedown ev s).state.shiftKey = ev.shiftKey ∧
    (mousedown ev s).state.needsRedraw = false ∧
    (mousedown ev s).ret = some true ∧
    (s.timer = none →
      (mousedown ev s).state.timer = some s.nextHandle ∧
      (mousedown ev s).calls =
        [HostCall.setInterval s.config.toolDrawDelay s.nextHandle,
         HostCall.statusShow "ellipseMousedown"]) ∧
    (∀ t, s.timer = some t →
      (mousedown ev s).state.timer = some t ∧
      (mousedown ev s).calls = [HostCall.statusShow "ellipseMousedown"]) ∧
    ((∃ d h, HostCall.setInterval d h ∈ (mousedown ev s).calls) ↔ s.timer = none) ∧
    (mousedown ev s).calls.count (HostCall.statusShow "ellipseMousedown") = 1 ∧
    (∀ c ∈ (mousedown ev s).calls,
      c = HostCall.setInterval s.config.toolDrawDelay s.nextHandle ∨
      c = HostCall.statusShow "ellipseMousedown") ∧
    (mousedown ev s).state.mouse = s.mouse ∧ (mousedown ev s).state.image = s.image ∧
    (mousedown ev s).state.config = s.config := by
  unfold mousedown
  cases h : s.timer <;> simp [h]

/-- C15: when `needsRedraw` is true and the pointer has the anchor's `x` or the
anchor's `y`, `draw` issues the one call `clearRect(0,0,image.width,image.height)`
and nothing else: no `beginPath`, `moveTo`, `bezierCurveTo`, `fill`, `stroke` or
`closePath`, whatever the shift flag and the shape type. -/
theorem degenerate_draws_nothing (s : State α) (hd : s.needsRedraw = true)
    (hz : s.mouse.x = s.x0 ∨ s.mouse.y = s.y0) :
    (draw s).calls = [HostCall.clearRect 0 0 s.image.width s.image.height] ∧
    HostCall.beginPath ∉ (draw s).calls ∧
    (∀ x y, HostCall.moveTo x y ∉ (draw s).calls) ∧
    (∀ a b c d x y, HostCall.bezierCurveTo a b c d x y ∉ (draw s).calls) ∧
    HostCall.fill ∉ (draw s).calls ∧ HostCall.stroke ∉ (draw s).calls ∧
    HostCall.closePath ∉ (draw s).calls := by
  rw [draw_degenerate s hd hz]
  simp [clearCanvas]

/-- C15 for a drag along the `x` axis, shift held: only the clear. -/
theorem degenerate_draws_nothing_witness :
    (draw (run [Step.pointer 110 10 true] (sampleDrag (7/5) true : State ℚ))).calls =
      [HostCall.clearRect 0 0 200 100] :=
  (degenerate_draws_nothing (run [Step.pointer 110 10 true] (sampleDrag (7/5) true : State ℚ))
    rfl (Or.inr rfl)).1

/-- C17: with `needsRedraw` false `draw` makes no host call and leaves the state
unchanged; with `needsRedraw` true its first host call is
`clearRect(0,0,image.width,image.height)`, and every other call of that `draw`
(the path, fill and stroke calls) comes after it and is not a `clearRect`; after
a non-degenerate dirty `draw`, `needsRedraw` is false and an immediately
following `draw` is a no-op. -/
theorem tick_dirty_guard (s : State α) :
    (s.needsRedraw = false → draw s = { state := s, calls := [], ret := none }) ∧
    (s.needsRedraw = true →
      ∃ rest, (draw s).calls = HostCall.clearRect 0 0 s.image.width s.image.height :: rest ∧
        (∀ a b c d, HostCall.clearRect a b c d ∉ rest) ∧
        (s.mouse.x ≠ s.x0 → s.mouse.y ≠ s.y0 →
          rest = pathCalls (K s.SQRT2) (finalRect s) ++ paintCalls s.config.shapeType)) ∧
    (s.needsRedraw = true → s.mouse.x ≠ s.x0 → s.mouse.y ≠ s.y0 →
      (draw s).state.needsRedraw = false ∧
      draw (draw s).state = { state := (draw s).state, calls := [], ret := none }) := by
  refine ⟨?_, ?_, ?_⟩
  · intro h
    simp [draw, h]
  · intro hd
    by_cases hz : s.mouse.x = s.x0 ∨ s.mouse.y = s.y0
    · refine ⟨[], ?_, ?_, ?_⟩
      · rw [draw_degenerate s hd hz]; rfl
      · simp
      · intro hx hy
        rcases hz with h | h
        · exact absurd h hx
        · exact absurd h hy
    · have hx : s.mouse.x ≠ s.x0 := fun h => hz (Or.inl h)
      have hy : s.mouse.y ≠ s.y0 := fun h => hz (Or.inr h)
      refine ⟨pathCalls (K s.SQRT2) (finalRect s) ++ paintCalls s.config.shapeType, ?_, ?_, ?_⟩
      · rw [draw_dirty s hd hx hy]; rfl
      · intro a b c d
        simp only [pathCalls, paintCalls]
        split_ifs <;> simp
      · intro _ _; rfl
  · intro hd hx hy
    rw [draw_dirty s hd hx hy]
    refine ⟨rfl, ?_⟩
    simp [draw]

/-- C17 on the sample drag: the tick starts with the clear, resets the flag, and
the next tick does nothing. -/
theorem tick_dirty_guard_witness :
    (draw (sampleDrag (7/5) false : State ℚ)).calls.head? =
      some (HostCall.clearRect 0 0 200 100) ∧
    (draw (sampleDrag (7/5) false : State ℚ)).state.needsRedraw = false ∧
    (draw (draw (sampleDrag (7/5) false : State ℚ)).state).calls = [] := by
  obtain ⟨-, h2, h3⟩ := tick_dirty_guard (sampleDrag (7/5) false : State ℚ)
  obtain ⟨rest, e, -, -⟩ := h2 rfl
  obtain ⟨k1, k2⟩ := h3 rfl (by norm_num [sampleDrag]) (by norm_num [sampleDrag])
  refine ⟨?_, k1, ?_⟩
  · rw [e]; rfl
  · rw [k2]

/-! ## The constrained square in reference form -/

theorem sgn_of_pos {a : α} (h : 0 < a) : sgn a = 1 := by
  simp [sgn, h]

theorem sgn_of_neg {a : α} (h : a < 0) : sgn a = -1 := by
  simp [sgn, h, not_lt.mpr h.le]

/-- The constrained square contains the anchor and the pointer. -/
theorem finalRect_shift_contains (s : State α) (hs : s.shiftKey = true)
    (hx : s.mouse.x ≠ s.x0) (hy : s.mouse.y ≠ s.y0) :
    (finalRect s).rectx0 ≤ s.mouse.x ∧ s.mouse.x ≤ (finalRect s).rectx1 ∧
    (finalRect s).rectx0 ≤ s.x0 ∧ s.x0 ≤ (finalRect s).rectx1 ∧
    (finalRect s).recty0 ≤ s.mouse.y ∧ s.mouse.y ≤ (finalRect s).recty1 ∧
    (finalRect s).recty0 ≤ s.y0 ∧ s.y0 ≤ (finalRect s).recty1 ∧
    (s.mouse.x = (finalRect s).rectx0 ∨ s.mouse.x = (finalRect s).rectx1 ∨
      s.mouse.y = (finalRect s).recty0 ∨ s.mouse.y = (finalRect s).recty1) := by
  simp only [finalRect, hs, if_true, constrainCircle]
  simp only [boundingRect]
  rcases lt_or_gt_of_ne hx with hx1 | hx1 <;> rcases lt_or_gt_of_ne hy with hy1 | hy1 <;>
    simp only [min_eq_left hx1.le, max_eq_right hx1.le, min_eq_right hx1.le, max_eq_left hx1.le,
      min_eq_left hy1.le, max_eq_right hy1.le, min_eq_right hy1.le, max_eq_left hy1.le] <;>
    split_ifs <;> dsimp only <;> refine ⟨?_, ?_, ?_, ?_, ?_, ?_, ?_, ?_, ?_⟩ <;>
    first
      | linarith
      | (left; rfl)
      | (right; left; rfl)
      | (right; right; left; rfl)
      | (right; right; right; rfl)

/-- The square computed by the `shiftKey` block is the reference square. -/
theorem finalRect_eq_referenceSquare (s : State α) (hs : s.shiftKey = true)
    (hx : s.mouse.x ≠ s.x0) (hy : s.mouse.y ≠ s.y0) :
    finalRect s = referenceSquare s := by
  obtain ⟨h1, h2, h3, h4, h5, h6⟩ := finalRect_shift s hs hx hy
  obtain ⟨k1, k2, k3, k4, k5, k6, k7, k8, -⟩ := finalRect_shift_contains s hs hx hy
  have hS : 0 < max |s.mouse.x - s.x0| |s.mouse.y - s.y0| :=
    lt_max_of_lt_left (abs_pos.mpr (sub_ne_zero.mpr hx))
  simp only [referenceSquare]
  generalize max |s.mouse.x - s.x0| |s.mouse.y - s.y0| = S at *
  rcases hfr : finalRect s with ⟨a, b, c, d, w, h⟩
  rw [hfr] at h1 h2 h3 h4 h5 h6 k1 k2 k3 k4 k5 k6 k7 k8
  simp only at h1 h2 h3 h4 h5 h6 k1 k2 k3 k4 k5 k6 k7 k8
  have ex : a = min s.x0 (s.x0 + sgn (s.mouse.x - s.x0) * S) ∧
      c = max s.x0 (s.x0 + sgn (s.mouse.x - s.x0) * S) := by
    rcases lt_or_gt_of_ne hx with hx1 | hx1
    · have hc : c = s.x0 := by
        rcases h5 with e | e
        · exfalso; linarith
        · exact e
      rw [sgn_of_neg (sub_neg.mpr hx1), min_eq_right (by linarith), max_eq_left (by linarith)]
      constructor <;> linarith
    · have ha : a = s.x0 := by
        rcases h5 with e | e
        · exact e
        · exfalso; linarith
      rw [sgn_of_pos (sub_pos.mpr hx1), min_eq_left (by linarith), max_eq_right (by linarith)]
      constructor <;> linarith
  have ey : b = min s.y0 (s.y0 + sgn (s.mouse.y - s.y0) * S) ∧
      d = max s.y0 (s.y0 + sgn (s.mouse.y - s.y0) * S) := by
    rcases lt_or_gt_of_ne hy with hy1 | hy1
    · have hd : d = s.y0 := by
        rcases h6 with e | e
        · exfalso; linarith
        · exact e
      rw [sgn_of_neg (sub_neg.mpr hy1), min_eq_right (by linarith), max_eq_left (by linarith)]
      constructor <;> linarith
    · have hb : b = s.y0 := by
        rcases h6 with e | e
        · exact e
        · exfalso; linarith
      rw [sgn_of_pos (sub_pos.mpr hy1), min_eq_left (by linarith), max_eq_right (by linarith)]
      constructor <;> linarith
  rw [Rect.mk.injEq]
  exact ⟨ex.1, ey.1, ex.2, ey.2, h1, h2⟩

/-- C18: with the shift flag set and anchor and pointer different in both
coordinates, the rectangle a dirty `draw` uses is the reference square (one
corner at the anchor, the opposite corner at
`(x0 + sgn(mx-x0)*s, y0 + sgn(my-y0)*s)`, `s = max |mx-x0| |my-y0|`); it contains
the unconstrained bounding rectangle of anchor and pointer, and the pointer lies
on its boundary. -/
theorem constrained_square_reference (s : State α) (hs : s.shiftKey = true)
    (hd : s.needsRedraw = true) (hx : s.mouse.x ≠ s.x0) (hy : s.mouse.y ≠ s.y0) :
    (draw s).calls = clearCanvas s :: (pathCalls (K s.SQRT2) (referenceSquare s) ++
      paintCalls s.config.shapeType) ∧
    finalRect s = referenceSquare s ∧
    ((referenceSquare s).rectx0 ≤ (boundingRect s).rectx0 ∧
      (boundingRect s).rectx1 ≤ (referenceSquare s).rectx1 ∧
      (referenceSquare s).recty0 ≤ (boundingRect s).recty0 ∧
      (boundingRect s).recty1 ≤ (referenceSquare s).recty1) ∧
    ((referenceSquare s).rectx0 ≤ s.mouse.x ∧ s.mouse.x ≤ (referenceSquare s).rectx1 ∧
      (referenceSquare s).recty0 ≤ s.mouse.y ∧ s.mouse.y ≤ (referenceSquare s).recty1) ∧
    (s.mouse.x = (referenceSquare s).rectx0 ∨ s.mouse.x = (referenceSquare s).rectx1 ∨
      s.mouse.y = (referenceSquare s).recty0 ∨ s.mouse.y = (referenceSquare s).recty1) := by
  have e := finalRect_eq_referenceSquare s hs hx hy
  obtain ⟨k1, k2, k3, k4, k5, k6, k7, k8, k9⟩ := finalRect_shift_contains s hs hx hy
  rw [e] at k1 k2 k3 k4 k5 k6 k7 k8 k9
  refine ⟨?_, e, ⟨?_, ?_, ?_, ?_⟩, ⟨k1, k2, k5, k6⟩, k9⟩
  · rw [draw_dirty s hd hx hy, e]
  · exact le_min k1 k3
  · exact max_le k2 k4
  · exact le_min k5 k7
  · exact max_le k6 k8

/-- C18 at anchor `(10,10)`, pointer `(110,60)`: both forms give the square
`(10,10)-(110,110)`. -/
theorem constrained_square_reference_witness :
    referenceSquare (sampleDrag (7/5) true : State ℚ) =
      { rectx0 := 10, recty0 := 10, rectx1 := 110, recty1 := 110, w := 100, h := 100 } ∧
    finalRect (sampleDrag (7/5) true : State ℚ) =
      { rectx0 := 10, recty0 := 10, rectx1 := 110, recty1 := 110, w := 100, h := 100 } := by
  have h := constrained_square_reference (sampleDrag (7/5) true : State ℚ) rfl rfl
    (by norm_num [sampleDrag]) (by norm_num [sampleDrag])
  have e : referenceSquare (sampleDrag (7/5) true : State ℚ) =
      { rectx0 := 10, recty0 := 10, rectx1 := 110, recty1 := 110, w := 100, h := 100 } := by
    norm_num [referenceSquare, sgn, sampleDrag]
  exact ⟨e, h.2.1.trans e⟩

/-! ## Degenerate ticks -/

theorem run_draw_degenerate (s : State α) (hd : s.needsRedraw = true)
    (hz : s.mouse.x = s.x0 ∨ s.mouse.y = s.y0) (n : Nat) :
    run (List.replicate n Step.draw) s = s ∧
    runCalls (List.replicate n Step.draw) s = List.replicate n (clearCanvas s) := by
  induction n with
  | zero => exact ⟨rfl, rfl⟩
  | succ n ih =>
    have e : step Step.draw s = { state := s, calls := [clearCanvas s], ret := none } :=
      draw_degenerate s hd hz
    rw [List.replicate_succ, run_cons, runCalls, e]
    exact ⟨ih.1, by rw [ih.2]; rfl⟩

/-- C19: when `needsRedraw` is true and the pointer has the anchor's `x` or the
anchor's `y`, `draw` clears the surface and leaves the state as it was, so
`needsRedraw` is still true and each of any number of further `draw` calls clears
the surface again; and if the pointer is displaced along the other axis,
`mouseup` leaves no timer but `needsRedraw` true, having called `layerUpdate`
once. -/
theorem degenerate_keeps_dirty (s : State α) (hd : s.needsRedraw = true)
    (hz : s.mouse.x = s.x0 ∨ s.mouse.y = s.y0) :
    (draw s).state = s ∧ (draw s).state.needsRedraw = true ∧
    (draw s).calls = [HostCall.clearRect 0 0 s.image.width s.image.height] ∧
    (∀ n, run (List.replicate n Step.draw) s = s ∧
      runCalls (List.replicate n Step.draw) s =
        List.replicate n (HostCall.clearRect 0 0 s.image.width s.image.height)) ∧
    ((s.mouse.x ≠ s.x0 ∨ s.mouse.y ≠ s.y0) →
      (mouseup s).state.timer = none ∧ (mouseup s).state.needsRedraw = true ∧
      (mouseup s).calls =
        clearTimer s.timer ++
          [HostCall.clearRect 0 0 s.image.width s.image.height, HostCall.layerUpdate,
           HostCall.statusShow "ellipseActive"] ∧
      (mouseup s).calls.count HostCall.layerUpdate = 1) := by
  have e := draw_degenerate s hd hz
  refine ⟨by rw [e], by rw [e]; exact hd, by rw [e]; rfl, run_draw_degenerate s hd hz, ?_⟩
  intro hne
  obtain ⟨m1, m2, m3, -, m5, -, -⟩ := mouseup_commits s hne
  have e' := draw_degenerate { s with timer := none } hd hz
  rw [e'] at m2 m3
  refine ⟨m1, by rw [m2]; exact hd, ?_, m5⟩
  rw [m3]
  simp [clearCanvas]

/-- C19 for the sample drag with the pointer moved back to the anchor's row. -/
theorem degenerate_keeps_dirty_witness :
    (draw (run [Step.pointer 110 10 true] (sampleDrag (7/5) false : State ℚ))).state.needsRedraw =
      true ∧
    (mouseup (run [Step.pointer 110 10 true] (sampleDrag (7/5) false : State ℚ))).state.timer =
      none ∧
    (mouseup (run [Step.pointer 110 10 true]
      (sampleDrag (7/5) false : State ℚ))).state.needsRedraw = true ∧
    (mouseup (run [Step.pointer 110 10 true] (sampleDrag (7/5) false : State ℚ))).calls =
      [HostCall.clearInterval 1, HostCall.clearRect 0 0 200 100, HostCall.layerUpdate,
       HostCall.statusShow "ellipseActive"] := by
  have h := degenerate_keeps_dirty
    (run [Step.pointer 110 10 true] (sampleDrag (7/5) false : State ℚ)) rfl (Or.inr rfl)
  obtain ⟨-, h2, -, -, h5⟩ := h
  have hne : (run [Step.pointer 110 10 true] (sampleDrag (7/5) false : State ℚ)).mouse.x ≠
      (run [Step.pointer 110 10 true] (sampleDrag (7/5) false : State ℚ)).x0 := by
    show (110 : ℚ) ≠ 10
    norm_num
  obtain ⟨k1, k2, k3, -⟩ := h5 (Or.inl hne)
  exact ⟨h2, k1, k2, k3⟩

/-! ## The outline and the drag box -/

/-- A cubic Bézier coordinate stays between bounds that hold for its four
defining values (the convex-hull property, one coordinate at a time). -/
theorem cubicBezier_mem (lo hi t a b c d : α) (ht0 : 0 ≤ t) (ht1 : t ≤ 1)
    (ha : lo ≤ a ∧ a ≤ hi) (hb : lo ≤ b ∧ b ≤ hi) (hc : lo ≤ c ∧ c ≤ hi)
    (hd : lo ≤ d ∧ d ≤ hi) :
    lo ≤ cubicBezier t a b c d ∧ cubicBezier t a b c d ≤ hi := by
  have hu : 0 ≤ 1 - t := sub_nonneg.mpr ht1
  have w0 : 0 ≤ (1 - t) ^ 3 := pow_nonneg hu 3
  have w1 : 0 ≤ 3 * (1 - t) ^ 2 * t := mul_nonneg (mul_nonneg (by norm_num) (pow_nonneg hu 2)) ht0
  have w2 : 0 ≤ 3 * (1 - t) * t ^ 2 := mul_nonneg (mul_nonneg (by norm_num) hu) (pow_nonneg ht0 2)
  have w3 : 0 ≤ t ^ 3 := pow_nonneg ht0 3
  have hsum : (1 - t) ^ 3 + 3 * (1 - t) ^ 2 * t + 3 * (1 - t) * t ^ 2 + t ^ 3 = 1 := by ring
  have lower : cubicBezier t a b c d - lo =
      (1 - t) ^ 3 * (a - lo) + 3 * (1 - t) ^ 2 * t * (b - lo) +
        3 * (1 - t) * t ^ 2 * (c - lo) + t ^ 3 * (d - lo) := by
    unfold cubicBezier
    linear_combination (-lo) * hsum
  have upper : hi - cubicBezier t a b c d =
      (1 - t) ^ 3 * (hi - a) + 3 * (1 - t) ^ 2 * t * (hi - b) +
        3 * (1 - t) * t ^ 2 * (hi - c) + t ^ 3 * (hi - d) := by
    unfold cubicBezier
    linear_combination hi * hsum
  constructor
  · have h := add_nonneg (add_nonneg (add_nonneg
      (mul_nonneg w0 (sub_nonneg.mpr ha.1)) (mul_nonneg w1 (sub_nonneg.mpr hb.1)))
      (mul_nonneg w2 (sub_nonneg.mpr hc.1))) (mul_nonneg w3 (sub_nonneg.mpr hd.1))
    rw [← lower] at h
    exact sub_nonneg.mp h
  · have h := add_nonneg (add_nonneg (add_nonneg
      (mul_nonneg w0 (sub_nonneg.mpr ha.2)) (mul_nonneg w1 (sub_nonneg.mpr hb.2)))
      (mul_nonneg w2 (sub_nonneg.mpr hc.2))) (mul_nonneg w3 (sub_nonneg.mpr hd.2))
    rw [← upper] at h
    exact sub_nonneg.mp h

/-- The thirteen points of a dirty, non-degenerate `draw`, in call order. -/
theorem pathPoints_draw (s : State α) (hd : s.needsRedraw = true)
    (hx : s.mouse.x ≠ s.x0) (hy : s.mouse.y ≠ s.y0) :
    pathPoints (draw s).calls =
      [ (centreX (finalRect s), (finalRect s).recty0),
        (centreX (finalRect s) + radiusX (finalRect s) * K s.SQRT2, (finalRect s).recty0),
        ((finalRect s).rectx1, centreY (finalRect s) - radiusY (finalRect s) * K s.SQRT2),
        ((finalRect s).rectx1, centreY (finalRect s)),
        ((finalRect s).rectx1, centreY (finalRect s) + radiusY (finalRect s) * K s.SQRT2),
        (centreX (finalRect s) + radiusX (finalRect s) * K s.SQRT2, (finalRect s).recty1),
        (centreX (finalRect s), (finalRect s).recty1),
        (centreX (finalRect s) - radiusX (finalRect s) * K s.SQRT2, (finalRect s).recty1),
        ((finalRect s).rectx0, centreY (finalRect s) + radiusY (finalRect s) * K s.SQRT2),
        ((finalRect s).rectx0, centreY (finalRect s)),
        ((finalRect s).rectx0, centreY (finalRect s) - radiusY (finalRect s) * K s.SQRT2),
        (centreX (finalRect s) - radiusX (finalRect s) * K s.SQRT2, (finalRect s).recty0),
        (centreX (finalRect s), (finalRect s).recty0) ] := by
  rw [draw_dirty s hd hx hy]
  simp [pathCalls, pathPoints, pathPoints_paintCalls, clearCanvas]

/-- The four cubic segments of a dirty, non-degenerate `draw`, in call order. -/
theorem segmentsFrom_draw (s : State α) (hd : s.needsRedraw = true)
    (hx : s.mouse.x ≠ s.x0) (hy : s.mouse.y ≠ s.y0) :
    segmentsFrom none (draw s).calls =
      [ ((centreX (finalRect s), (finalRect s).recty0),
         (centreX (finalRect s) + radiusX (finalRect s) * K s.SQRT2, (finalRect s).recty0),
         ((finalRect s).rectx1, centreY (finalRect s) - radiusY (finalRect s) * K s.SQRT2),
         ((finalRect s).rectx1, centreY (finalRect s))),
        (((finalRect s).rectx1, centreY (finalRect s)),
         ((finalRect s).rectx1, centreY (finalRect s) + radiusY (finalRect s) * K s.SQRT2),
         (centreX (finalRect s) + radiusX (finalRect s) * K s.SQRT2, (finalRect s).recty1),
         (centreX (finalRect s), (finalRect s).recty1)),
        ((centreX (finalRect s), (finalRect s).recty1),
         (centreX (finalRect s) - radiusX (finalRect s) * K s.SQRT2, (finalRect s).recty1),
         ((finalRect s).rectx0, centreY (finalRect s) + radiusY (finalRect s) * K s.SQRT2),
         ((finalRect s).rectx0, centreY (finalRect s))),
        (((finalRect s).rectx0, centreY (finalRect s)),
         ((finalRect s).rectx0, centreY (finalRect s) - radiusY (finalRect s) * K s.SQRT2),
         (centreX (finalRect s) - radiusX (finalRect s) * K s.SQRT2, (finalRect s).recty0),
         (centreX (finalRect s), (finalRect s).recty0)) ] := by
  rw [draw_dirty s hd hx hy]
  simp [pathCalls, segmentsFrom, segmentsFrom_paintCalls, clearCanvas]

/-- With `0 ≤ K ≤ 1` every point handed to the context by a dirty,
non-degenerate `draw` lies in the final rectangle. -/
theorem draw_points_in_rect (s : State α) (hd : s.needsRedraw = true)
    (hx : s.mouse.x ≠ s.x0) (hy : s.mouse.y ≠ s.y0)
    (hk0 : 0 ≤ K s.SQRT2) (hk1 : K s.SQRT2 ≤ 1) :
    (∀ p ∈ pathPoints (draw s).calls, (finalRect s).contains p) ∧
    (∀ seg ∈ segmentsFrom none (draw s).calls,
      (finalRect s).contains seg.1 ∧ (finalRect s).contains seg.2.1 ∧
      (finalRect s).contains seg.2.2.1 ∧ (finalRect s).contains seg.2.2.2) := by
  obtain ⟨e1, e2, hw, hh⟩ := finalRect_dims s hx hy
  rw [pathPoints_draw s hd hx hy, segmentsFrom_draw s hd hx hy]
  generalize finalRect s = r at *
  generalize K s.SQRT2 = k at *
  have hrx : 0 < radiusX r := by unfold radiusX; linarith
  have hry : 0 < radiusY r := by unfold radiusY; linarith
  have hu0 : 0 ≤ radiusX r * k := mul_nonneg hrx.le hk0
  have hv0 : 0 ≤ radiusY r * k := mul_nonneg hry.le hk0
  have hu1 : radiusX r * k ≤ radiusX r := mul_le_of_le_one_right hrx.le hk1
  have hv1 : radiusY r * k ≤ radiusY r := mul_le_of_le_one_right hry.le hk1
  have hcx : centreX r = r.rectx0 + radiusX r := rfl
  have hcy : centreY r = r.recty0 + radiusY r := rfl
  have e1' : r.rectx1 = r.rectx0 + 2 * radiusX r := by rw [e1]; unfold radiusX; ring
  have e2' : r.recty1 = r.recty0 + 2 * radiusY r := by rw [e2]; unfold radiusY; ring
  generalize radiusX r * k = u at *
  generalize radiusY r * k = v at *
  generalize radiusX r = rx at *
  generalize radiusY r = ry at *
  constructor
  · intro p hp
    simp only [List.mem_cons, List.mem_singleton, List.not_mem_nil, or_false] at hp
    rcases hp with rfl | rfl | rfl | rfl | rfl | rfl | rfl | rfl | rfl | rfl | rfl | rfl | rfl <;>
      (unfold Rect.contains; dsimp only; refine ⟨?_, ?_, ?_, ?_⟩ <;> linarith)
  · intro seg hseg
    simp only [List.mem_cons, List.mem_singleton, List.not_mem_nil, or_false] at hseg
    rcases hseg with rfl | rfl | rfl | rfl <;>
      (unfold Rect.contains; dsimp only
       refine ⟨⟨?_, ?_, ?_, ?_⟩, ⟨?_, ?_, ?_, ?_⟩, ⟨?_, ?_, ?_, ?_⟩, ⟨?_, ?_, ?_, ?_⟩⟩ <;> linarith)

end Facts

section Moves

variable {α : Type}

/-- C16: for every state and event, `mousemove` sets the shift flag to
`ev.shiftKey` and `needsRedraw` to true, changes nothing else (anchor and timer
handle included), makes no host call, and returns nothing. -/
theorem mousemove_pure (ev : Event) (s : State α) :
    (mousemove ev s).state = { s with shiftKey := ev.shiftKey, needsRedraw := true } ∧
    (mousemove ev s).state.shiftKey = ev.shiftKey ∧
    (mousemove ev s).state.needsRedraw = true ∧
    (mousemove ev s).state.x0 = s.x0 ∧ (mousemove ev s).state.y0 = s.y0 ∧
    (mousemove ev s).state.timer = s.timer ∧
    (mousemove ev s).calls = [] ∧ (mousemove ev s).ret = none :=
  ⟨rfl, rfl, rfl, rfl, rfl, rfl, rfl, rfl⟩

end Moves


section Exact

theorem K_sqrt_two_pos : 0 < K (Real.sqrt 2) := by
  have h : (1 : ℝ) < Real.sqrt 2 := by
    rw [Real.lt_sqrt (by norm_num)]; norm_num
  unfold K
  linarith

theorem K_sqrt_two_lt_one : K (Real.sqrt 2) < 1 := by
  have h : Real.sqrt 2 < 7 / 4 := by
    rw [Real.sqrt_lt' (by norm_num)]; norm_num
  unfold K
  linarith

/-- C3: over exact real arithmetic with `K = 4(√2 - 1)/3`, the eight control
points of a dirty non-degenerate `draw` (so `w > 0`, `h > 0`) form a set that is
invariant under point reflection through the centre `(cx,cy)`; each of them lies
on a side of the rectangle, and it differs from the centre by exactly `(w/2)*K`
in `x` when it lies on a horizontal side and by exactly `(h/2)*K` in `y` when it
lies on a vertical side. -/
theorem control_points_symmetric (s : State ℝ) (hk : s.SQRT2 = Real.sqrt 2)
    (hd : s.needsRedraw = true) (hx : s.mouse.x ≠ s.x0) (hy : s.mouse.y ≠ s.y0) :
    0 < (finalRect s).w ∧ 0 < (finalRect s).h ∧
    (controlPoints (draw s).calls).length = 8 ∧
    (∀ p ∈ controlPoints (draw s).calls,
      (2 * centreX (finalRect s) - p.1, 2 * centreY (finalRect s) - p.2) ∈
        controlPoints (draw s).calls) ∧
    (∀ p ∈ controlPoints (draw s).calls,
      (p.2 = (finalRect s).recty0 ∨ p.2 = (finalRect s).recty1) ∨
      (p.1 = (finalRect s).rectx0 ∨ p.1 = (finalRect s).rectx1)) ∧
    (∀ p ∈ controlPoints (draw s).calls,
      (p.2 = (finalRect s).recty0 ∨ p.2 = (finalRect s).recty1) →
        |p.1 - centreX (finalRect s)| = (finalRect s).w / 2 * (4 * (Real.sqrt 2 - 1) / 3)) ∧
    (∀ p ∈ controlPoints (draw s).calls,
      (p.1 = (finalRect s).rectx0 ∨ p.1 = (finalRect s).rectx1) →
        |p.2 - centreY (finalRect s)| = (finalRect s).h / 2 * (4 * (Real.sqrt 2 - 1) / 3)) := by
  obtain ⟨e1, e2, hw, hh⟩ := finalRect_dims s hx hy
  have hK0 := K_sqrt_two_pos
  have hK1 := K_sqrt_two_lt_one
  have hKe : K (Real.sqrt 2) = 4 * (Real.sqrt 2 - 1) / 3 := by unfold K; ring
  rw [← hKe, controlPoints_draw s hd hx hy, hk]
  generalize finalRect s = r at *
  generalize K (Real.sqrt 2) = k at *
  have hu0 : 0 < radiusX r * k := mul_pos (by unfold radiusX; linarith) hK0
  have hv0 : 0 < radiusY r * k := mul_pos (by unfold radiusY; linarith) hK0
  have hu1 : radiusX r * k < radiusX r :=
    mul_lt_of_lt_one_right (by unfold radiusX; linarith) hK1
  have hv1 : radiusY r * k < radiusY r :=
    mul_lt_of_lt_one_right (by unfold radiusY; linarith) hK1
  have hcx : centreX r = r.rectx0 + radiusX r := rfl
  have hcy : centreY r = r.recty0 + radiusY r := rfl
  have hrx : r.w / 2 = radiusX r := rfl
  have hry : r.h / 2 = radiusY r := rfl
  have e1' : r.rectx1 = r.rectx0 + 2 * radiusX r := by rw [e1]; unfold radiusX; ring
  have e2' : r.recty1 = r.recty0 + 2 * radiusY r := by rw [e2]; unfold radiusY; ring
  rw [hrx, hry, hcx, hcy, e1', e2']
  generalize radiusX r * k = u at *
  generalize radiusY r * k = v at *
  generalize radiusX r = rx at *
  generalize radiusY r = ry at *
  refine ⟨hw, hh, rfl, ?_, ?_, ?_, ?_⟩
  · intro p hp
    have hm := List.mem_map_of_mem
      (fun q : ℝ × ℝ => (2 * (r.rectx0 + rx) - q.1, 2 * (r.recty0 + ry) - q.2)) hp
    have hrot : List.map
        (fun q : ℝ × ℝ => (2 * (r.rectx0 + rx) - q.1, 2 * (r.recty0 + ry) - q.2))
        [(r.rectx0 + rx + u, r.recty0), (r.rectx0 + 2 * rx, r.recty0 + ry - v),
         (r.rectx0 + 2 * rx, r.recty0 + ry + v), (r.rectx0 + rx + u, r.recty0 + 2 * ry),
         (r.rectx0 + rx - u, r.recty0 + 2 * ry), (r.rectx0, r.recty0 + ry + v),
         (r.rectx0, r.recty0 + ry - v), (r.rectx0 + rx - u, r.recty0)] =
        [(r.rectx0 + rx - u, r.recty0 + 2 * ry), (r.rectx0, r.recty0 + ry + v),
         (r.rectx0, r.recty0 + ry - v), (r.rectx0 + rx - u, r.recty0),
         (r.rectx0 + rx + u, r.recty0), (r.rectx0 + 2 * rx, r.recty0 + ry - v),
         (r.rectx0 + 2 * rx, r.recty0 + ry + v), (r.rectx0 + rx + u, r.recty0 + 2 * ry)] := by
      simp only [List.map_cons, List.map_nil, List.cons.injEq, Prod.mk.injEq, and_true]
      refine ⟨⟨?_, ?_⟩, ⟨?_, ?_⟩, ⟨?_, ?_⟩, ⟨?_, ?_⟩, ⟨?_, ?_⟩, ⟨?_, ?_⟩, ⟨?_, ?_⟩, ⟨?_, ?_⟩⟩ <;> ring
    rw [hrot] at hm
    simp only [List.mem_cons, List.mem_singleton, List.not_mem_nil, or_false] at hm ⊢
    tauto
  · intro p hp
    simp only [List.mem_cons, List.mem_singleton, List.not_mem_nil, or_false] at hp
    rcases hp with rfl | rfl | rfl | rfl | rfl | rfl | rfl | rfl <;> simp
  · intro p hp
    simp only [List.mem_cons, List.mem_singleton, List.not_mem_nil, or_false] at hp
    rcases hp with rfl | rfl | rfl | rfl | rfl | rfl | rfl | rfl <;> intro hside <;>
      dsimp only at hside ⊢ <;>
      first
        | (rcases hside with hside | hside <;> exfalso <;> linarith)
        | (rw [abs_of_pos (by linarith)]; ring)
        | (rw [abs_of_neg (by linarith)]; ring)
  · intro p hp
    simp only [List.mem_cons, List.mem_singleton, List.not_mem_nil, or_false] at hp
    rcases hp with rfl | rfl | rfl | rfl | rfl | rfl | rfl | rfl <;> intro hside <;>
      dsimp only at hside ⊢ <;>
      first
        | (rcases hside with hside | hside <;> exfalso <;> linarith)
        | (rw [abs_of_pos (by linarith)]; ring)
        | (rw [abs_of_neg (by linarith)]; ring)

/-- C3 at anchor `(10,10)`, pointer `(110,60)`, no shift: centre `(60,35)`,
offsets `50*K` and `25*K`. -/
theorem control_points_symmetric_witness :
    (controlPoints (draw (sampleDrag (Real.sqrt 2) false : State ℝ)).calls).length = 8 ∧
    (∀ p ∈ controlPoints (draw (sampleDrag (Real.sqrt 2) false : State ℝ)).calls,
      (2 * 60 - p.1, 2 * 35 - p.2) ∈
        controlPoints (draw (sampleDrag (Real.sqrt 2) false : State ℝ)).calls) ∧
    (∀ p ∈ controlPoints (draw (sampleDrag (Real.sqrt 2) false : State ℝ)).calls,
      (p.2 = 10 ∨ p.2 = 60) → |p.1 - 60| = 50 * (4 * (Real.sqrt 2 - 1) / 3)) ∧
    (∀ p ∈ controlPoints (draw (sampleDrag (Real.sqrt 2) false : State ℝ)).calls,
      (p.1 = 10 ∨ p.1 = 110) → |p.2 - 35| = 25 * (4 * (Real.sqrt 2 - 1) / 3)) := by
  have h := control_points_symmetric (sampleDrag (Real.sqrt 2) false : State ℝ) rfl rfl
    (by norm_num [sampleDrag]) (by norm_num [sampleDrag])
  have e : finalRect (sampleDrag (Real.sqrt 2) false : State ℝ) =
      { rectx0 := 10, recty0 := 10, rectx1 := 110, recty1 := 60, w := 100, h := 50 } := by
    norm_num [finalRect, boundingRect, sampleDrag]
  have c1 : (10 : ℝ) + 50 = 60 := by norm_num
  have c2 : (10 : ℝ) + 25 = 35 := by norm_num
  have c3 : (100 : ℝ) / 2 = 50 := by norm_num
  have c4 : (50 : ℝ) / 2 = 25 := by norm_num
  simp only [e, centreX, centreY, radiusX, radiusY, c3, c4, c1, c2] at h
  exact ⟨h.2.2.1, h.2.2.2.1, h.2.2.2.2.2.1, h.2.2.2.2.2.2⟩

/-- C20: over exact real arithmetic with `K = 4(√2 - 1)/3`, so `0 < K < 1`, the
start point, the four segment end points and the eight control points of a dirty
non-degenerate `draw` (`w > 0`, `h > 0`) all lie in the closed rectangle
`[rectx0, rectx1] x [recty0, recty1]`, and so does every point of each of the four
cubic segments. -/
theorem outline_inside_box (s : State ℝ) (hk : s.SQRT2 = Real.sqrt 2)
    (hd : s.needsRedraw = true) (hx : s.mouse.x ≠ s.x0) (hy : s.mouse.y ≠ s.y0) :
    0 < K s.SQRT2 ∧ K s.SQRT2 < 1 ∧ K s.SQRT2 = 4 * (Real.sqrt 2 - 1) / 3 ∧
    0 < (finalRect s).w ∧ 0 < (finalRect s).h ∧
    (pathPoints (draw s).calls).length = 13 ∧
    (∀ p ∈ pathPoints (draw s).calls, (finalRect s).contains p) ∧
    (segmentsFrom none (draw s).calls).length = 4 ∧
    (∀ seg ∈ segmentsFrom none (draw s).calls, ∀ t : ℝ, 0 ≤ t → t ≤ 1 →
      (finalRect s).contains
        (cubicBezier t seg.1.1 seg.2.1.1 seg.2.2.1.1 seg.2.2.2.1,
         cubicBezier t seg.1.2 seg.2.1.2 seg.2.2.1.2 seg.2.2.2.2)) := by
  have hK0 : 0 < K s.SQRT2 := by rw [hk]; exact K_sqrt_two_pos
  have hK1 : K s.SQRT2 < 1 := by rw [hk]; exact K_sqrt_two_lt_one
  have hKe : K s.SQRT2 = 4 * (Real.sqrt 2 - 1) / 3 := by rw [hk]; unfold K; ring
  obtain ⟨-, -, hw, hh⟩ := finalRect_dims s hx hy
  obtain ⟨hp, hs⟩ := draw_points_in_rect s hd hx hy hK0.le hK1.le
  refine ⟨hK0, hK1, hKe, hw, hh, ?_, hp, ?_, ?_⟩
  · rw [pathPoints_draw s hd hx hy]; rfl
  · rw [segmentsFrom_draw s hd hx hy]; rfl
  · intro seg hseg t ht0 ht1
    obtain ⟨a, b, c, d⟩ := hs seg hseg
    have bx := cubicBezier_mem (finalRect s).rectx0 (finalRect s).rectx1 t
      seg.1.1 seg.2.1.1 seg.2.2.1.1 seg.2.2.2.1 ht0 ht1
      ⟨a.1, a.2.1⟩ ⟨b.1, b.2.1⟩ ⟨c.1, c.2.1⟩ ⟨d.1, d.2.1⟩
    have by' := cubicBezier_mem (finalRect s).recty0 (finalRect s).recty1 t
      seg.1.2 seg.2.1.2 seg.2.2.1.2 seg.2.2.2.2 ht0 ht1
      ⟨a.2.2.1, a.2.2.2⟩ ⟨b.2.2.1, b.2.2.2⟩ ⟨c.2.2.1, c.2.2.2⟩ ⟨d.2.2.1, d.2.2.2⟩
    exact ⟨bx.1, bx.2, by'.1, by'.2⟩

/-- C20 at anchor `(10,10)`, pointer `(110,60)`, no shift: all thirteen points lie
in `[10,110] x [10,60]`. -/
theorem outline_inside_box_witness :
    (pathPoints (draw (sampleDrag (Real.sqrt 2) false : State ℝ)).calls).length = 13 ∧
    (∀ p ∈ pathPoints (draw (sampleDrag (Real.sqrt 2) false : State ℝ)).calls,
      (10 : ℝ) ≤ p.1 ∧ p.1 ≤ 110 ∧ (10 : ℝ) ≤ p.2 ∧ p.2 ≤ 60) := by
  have h := outline_inside_box (sampleDrag (Real.sqrt 2) false : State ℝ) rfl rfl
    (by norm_num [sampleDrag]) (by norm_num [sampleDrag])
  have e : finalRect (sampleDrag (Real.sqrt 2) false : State ℝ) =
      { rectx0 := 10, recty0 := 10, rectx1 := 110, recty1 := 60, w := 100, h := 50 } := by
    norm_num [finalRect, boundingRect, sampleDrag]
  obtain ⟨-, -, -, -, -, h6, h7, -, -⟩ := h
  rw [e] at h7
  exact ⟨h6, h7⟩

end Exact

end EllipseTool
end PaintWeb
